import Mathlib

/-!
# go-certauth (package `mutualtls`): a shallow embedding of `certauth.go`

The embedding follows `certauth.go` function by function.

* A Go slice that the code compares with `nil` is an `Option (List _)`
  (`none` is the nil slice); a pointer that the code dereferences is an
  `Option _` (`none` is the nil pointer).
* A run-time panic (index out of range, nil dereference, assignment to an
  entry of a nil map) is the `error` side of `Except Panic _`; a returned Go
  `error` value is an `Option GoError` (`none` is the nil error).
* The header map of a request may be nil: `Request.Header` is an
  `Option Header`, and `Add` on the nil map panics.
* The policy (`AuthHandler`) is an interface value and may carry state of its
  own: its two methods are state transformers over an arbitrary type `σ`.
* The response writer `w` lives in the `State` that every effectful function
  threads; an `http.Handler` acts on it.  Following the contract of
  `http.Handler`, a handler does not modify the request it is given.
* Every call that leaves the package (policy methods, failure responder,
  downstream handler) is appended to `State.trace`, so that "is invoked",
  "is invoked once" and "is never invoked" are statements about the trace;
  that a handler or the policy was really applied shows in the response
  writer, the policy state and the result, which the statements pin as well.
* The methods of `http.Header` take the key canonicalisation as the argument
  `canon`; the general results hold for every such function, and
  `CanonicalMIMEHeaderKey` is the one of net/textproto, used where a concrete
  header map is evaluated.
-/

namespace mutualtls

/-! ## Go run-time and standard-library values -/

/-- Run-time panics that the embedded code can raise. -/
inductive Panic where
  | indexOutOfRange (index : Nat) (length : Nat)
  | nilDereference
  | assignmentToNilMap
  deriving DecidableEq, Repr

/-- Go `error` values built by `errors.New` and `fmt.Errorf`: the message. -/
structure GoError where
  msg : String
  deriving DecidableEq, Repr

/-- Go `errors.New`. -/
def errors.New (text : String) : GoError := ⟨text⟩

/-- The `%v` rendering of a `[]string` by package `fmt`: the elements
separated by one space, in square brackets. -/
def fmt.verbV (xs : List String) : String :=
  "[" ++ " ".intercalate xs ++ "]"

/-- Slice indexing `xs[i]`: panics when `i` is not below the length. -/
def index {α : Type} (xs : List α) (i : Nat) : Except Panic α :=
  match xs.get? i with
  | some x => .ok x
  | none => .error (.indexOutOfRange i xs.length)

/-- Pointer dereference: panics on the nil pointer. -/
def deref {α : Type} : Option α → Except Panic α
  | some x => .ok x
  | none => .error .nilDereference

/-- The elements of a slice that may be nil: a nil slice has none. -/
def elems {α : Type} : Option (List α) → List α
  | some xs => xs
  | none => []

deriving instance DecidableEq for Except

/-- Subject of a certificate (`pkix.Name`), the two fields the code reads. -/
structure Name where
  OrganizationalUnit : List String
  CommonName : String
  deriving DecidableEq, Repr

/-- An `x509.Certificate`: its raw encoded bytes and its subject. -/
structure Certificate where
  Raw : List (Fin 256)
  Subject : Name
  deriving DecidableEq, Repr

/-- The `tls.ConnectionState` fields the code reads.  Both lists are slices
the code compares with nil; their elements are certificate pointers. -/
structure ConnectionState where
  PeerCertificates : Option (List (Option Certificate))
  VerifiedChains : Option (List (List (Option Certificate)))
  deriving DecidableEq, Repr

/-- An allocated `http.Header`: a map from key to list of values, kept as an
association list that is read through `Header.index`.  The nil map is the
`none` of an `Option Header`; the header map of a request may be nil, the one
a response writer hands out is always allocated. -/
structure Header where
  entries : List (String × List String)
  deriving DecidableEq, Repr

/-- Map lookup: the entry stored under exactly this key, if any. -/
def Header.find : List (String × List String) → String → Option (List String)
  | [], _ => none
  | (k, v) :: rest, key => if k = key then some v else Header.find rest key

/-- Map read `h[key]`: the nil slice for a missing key. -/
def Header.index (h : Header) (key : String) : List String :=
  (Header.find h.entries key).getD []

/-- Map removal `delete(h, key)`. -/
def Header.delete (h : Header) (key : String) : Header :=
  ⟨h.entries.filter (fun e => e.1 ≠ key)⟩

/-- Map write `h[key] = vs`. -/
def Header.store (h : Header) (key : String) (vs : List String) : Header :=
  ⟨(key, vs) :: (h.delete key).entries⟩

/-- Go `Header.Del`: deletes the values stored under the canonical form of
the key.  `canon` is `textproto.CanonicalMIMEHeaderKey`. -/
def Header.Del (canon : String → String) (h : Header) (key : String) : Header :=
  h.delete (canon key)

/-- Go `Header.Add`: appends the value to those stored under the canonical
form of the key. -/
def Header.Add (canon : String → String) (h : Header) (key value : String) : Header :=
  h.store (canon key) (h.index (canon key) ++ [value])

/-- Go `Header.Values`: all values stored under the canonical form of the key. -/
def Header.Values (canon : String → String) (h : Header) (key : String) : List String :=
  h.index (canon key)

/-- Go `Header.Get`: the first value under the canonical form of the key, or
the empty string. -/
def Header.Get (canon : String → String) (h : Header) (key : String) : String :=
  match h.index (canon key) with
  | [] => ""
  | v :: _ => v

/-- Go `Header.Del` on a map that may be nil: `delete` on a nil map does
nothing. -/
def Header.Nilable.Del (canon : String → String) : Option Header → String → Option Header
  | none, _ => none
  | some h, key => some (Header.Del canon h key)

/-- Go `Header.Add` on a map that may be nil: the assignment to an entry of a
nil map panics. -/
def Header.Nilable.Add (canon : String → String) :
    Option Header → String → String → Except Panic (Option Header)
  | none, _, _ => .error .assignmentToNilMap
  | some h, key, value => .ok (some (Header.Add canon h key value))

/-- The `http.Request` fields the code reads or writes.  `Header` is `none`
when the header map is nil. -/
structure Request where
  TLS : Option ConnectionState
  Header : Option Header
  deriving DecidableEq, Repr

/-- One `httprouter.Param`. -/
structure Param where
  Key : String
  Value : String
  deriving DecidableEq, Repr

/-- The route parameters `httprouter.Params`. -/
abbrev Params := List Param

/-- Go `Params.ByName` of httprouter: the value of the first parameter with
this key, or the empty string. -/
def Params.ByName : Params → String → String
  | [], _ => ""
  | p :: rest, name => if p.Key = name then p.Value else Params.ByName rest name

/-- The parameter name under which httprouter stores the matched route. -/
def MatchedRoutePathParam : String := "$matchedRoutePath"

/-- Go `Params.MatchedRoutePath` of httprouter. -/
def Params.MatchedRoutePath (ps : Params) : String :=
  Params.ByName ps MatchedRoutePathParam

/-- The response under construction behind an `http.ResponseWriter`. -/
structure ResponseWriter where
  header : Header
  status : Option Nat
  body : String
  deriving DecidableEq, Repr

/-- An `http.Handler`: it acts on the response writer and reads the request. -/
structure Handler where
  ServeHTTP : ResponseWriter → Request → ResponseWriter

/-- An `httprouter.Handle`. -/
abbrev Handle := ResponseWriter → Request → Params → ResponseWriter

/-! ## The package's types -/

/-- The interface `AuthHandler`: the policy, over its own state `σ`. -/
structure AuthHandler (σ : Type) where
  ValidateOU : σ → List String → String → (String × Bool) × σ
  ValidateCN : σ → String → String → Bool × σ

/-- The struct `Auth`. -/
structure Auth (σ : Type) where
  authHandler : AuthHandler σ
  authErrHandler : Handler
  setReqHeaders : Bool
  reqHeaderIdentifier : String

/-- A call that leaves the package. -/
inductive Event where
  | ValidateOU (ous : List String) (route : String)
  | ValidateCN (cn : String) (route : String)
  | authErrHandler (r : Request)
  | downstream (r : Request) (ps : Params)
  deriving DecidableEq, Repr

/-- Is the event a call of the failure responder? -/
def Event.isAuthErr : Event → Bool
  | .authErrHandler _ => true
  | _ => false

/-- Is the event a call of the downstream handler? -/
def Event.isDownstream : Event → Bool
  | .downstream _ _ => true
  | _ => false

/-- Is the event a call of the policy method `ValidateCN`? -/
def Event.isValidateCN : Event → Bool
  | .ValidateCN _ _ => true
  | _ => false

/-- Is the event a call of the policy method `ValidateOU`? -/
def Event.isValidateOU : Event → Bool
  | .ValidateOU _ _ => true
  | _ => false

/-- What the code acts on besides its arguments: the policy's state, the
response writer `w`, and the record of outgoing calls. -/
structure State (σ : Type) where
  policy : σ
  w : ResponseWriter
  trace : List Event

/-- The state at the start of a request: nothing has been called yet. -/
def State.start {σ : Type} (p : σ) (w : ResponseWriter) : State σ :=
  ⟨p, w, []⟩

/-- The call `a.authHandler.ValidateOU(ous, route)`. -/
def callValidateOU {σ : Type} (a : Auth σ) (ous : List String) (route : String)
    (s : State σ) : (String × Bool) × State σ :=
  let out := a.authHandler.ValidateOU s.policy ous route
  (out.1, { s with policy := out.2, trace := s.trace ++ [Event.ValidateOU ous route] })

/-- The call `a.authHandler.ValidateCN(cn, route)`. -/
def callValidateCN {σ : Type} (a : Auth σ) (cn : String) (route : String)
    (s : State σ) : Bool × State σ :=
  let out := a.authHandler.ValidateCN s.policy cn route
  (out.1, { s with policy := out.2, trace := s.trace ++ [Event.ValidateCN cn route] })

/-- The call `a.authErrHandler.ServeHTTP(w, r)`. -/
def callAuthErrHandler {σ : Type} (a : Auth σ) (r : Request) (s : State σ) : State σ :=
  { s with w := a.authErrHandler.ServeHTTP s.w r,
           trace := s.trace ++ [Event.authErrHandler r] }

/-- The call `h(w, r, ps)` of the downstream handler. -/
def callDownstream {σ : Type} (h : Handle) (r : Request) (ps : Params)
    (s : State σ) : State σ :=
  { s with w := h s.w r ps, trace := s.trace ++ [Event.downstream r ps] }

/-! ## The package's functions -/

/-- The expression `r.TLS.VerifiedChains[0][0]` followed by a field read:
dereference `r.TLS`, index the chains, index the first chain, dereference the
certificate pointer. -/
def verifiedLeaf (r : Request) : Except Panic Certificate :=
  match deref r.TLS with
  | .error p => .error p
  | .ok tls =>
    match index (elems tls.VerifiedChains) 0 with
    | .error p => .error p
    | .ok chain =>
      match index chain 0 with
      | .error p => .error p
      | .ok c => deref c

/-- The expression `r.TLS.PeerCertificates[0]` followed by a field read. -/
def firstPeer (r : Request) : Except Panic Certificate :=
  match deref r.TLS with
  | .error p => .error p
  | .ok tls =>
    match index (elems tls.PeerCertificates) 0 with
    | .error p => .error p
    | .ok c => deref c

/-- Go `(*Auth).ValidateRequest`. -/
def ValidateRequest {σ : Type} (_a : Auth σ) (r : Request) : Except Panic (Option GoError) :=
  match r.TLS with
  | none => .ok (some (errors.New "No cert chain detected"))
  | some tls =>
    match tls.VerifiedChains with
    | none => .ok (some (errors.New "No cert chain detected"))
    | some _ =>
      match tls.PeerCertificates with
      | none => .ok none
      | some _ =>
        match firstPeer r with
        | .error p => .error p
        | .ok peer =>
          match verifiedLeaf r with
          | .error p => .error p
          | .ok leaf =>
            if peer.Raw ≠ leaf.Raw then
              .ok (some (errors.New "First peer certificate not first verified chain leaf"))
            else
              .ok none

/-- Go `(*Auth).Process`.  The writer `w` is `s.w`. -/
def Process {σ : Type} (a : Auth σ) (r : Request) (route : String) (s : State σ) :
    Except Panic (String × Option GoError) × State σ :=
  match ValidateRequest a r with
  | .error p => (.error p, s)
  | .ok (some err) => (.ok ("", some err), s)
  | .ok none =>
    -- Validate OU
    match verifiedLeaf r with
    | .error p => (.error p, s)
    | .ok leaf =>
      let ouCall := callValidateOU a leaf.Subject.OrganizationalUnit route s
      let ou := ouCall.1.1
      let ok := ouCall.1.2
      let s1 := ouCall.2
      if !ok then
        let s2 := callAuthErrHandler a r s1
        match verifiedLeaf r with
        | .error p => (.error p, s2)
        | .ok leaf2 =>
          (.ok ("", some ⟨"Cert failed OU validation for "
                  ++ fmt.verbV leaf2.Subject.OrganizationalUnit⟩), s2)
      else
        -- Validate CN
        match verifiedLeaf r with
        | .error p => (.error p, s1)
        | .ok leaf3 =>
          let cn := leaf3.Subject.CommonName
          let cnCall := callValidateCN a cn route s1
          if !cnCall.1 then
            let s3 := callAuthErrHandler a r cnCall.2
            (.ok ("", some ⟨"Cert failed CN validation for " ++ cn⟩), s3)
          else
            (.ok (ou ++ "/" ++ cn, none), cnCall.2)

/-- Go `(*Auth).RouterHandler`: the handler it returns, applied to a request
and its route parameters.  The result is `some p` when the handler panics. -/
def RouterHandler {σ : Type} (canon : String → String) (a : Auth σ) (h : Handle)
    (r : Request) (ps : Params) (s : State σ) : Option Panic × State σ :=
  match Process a r (Params.MatchedRoutePath ps) s with
  | (.error p, s1) => (some p, s1)
  | (.ok (_, some _), s1) => (none, s1)
  | (.ok (who, none), s1) =>
    if a.setReqHeaders then
      let ident := if a.reqHeaderIdentifier ≠ "" then a.reqHeaderIdentifier else "X-TLS-Auth"
      match Header.Nilable.Add canon (Header.Nilable.Del canon r.Header ident) ident who with
      | .error p => (some p, s1)
      | .ok hdr => (none, callDownstream h { r with Header := hdr } ps s1)
    else
      (none, callDownstream h r ps s1)

/-! ## Example values -/

/-- A policy without state that allows one OU and one CN on every route, and
reports the allowed OU as the matched one. -/
def allowOne (ou cn : String) : AuthHandler Unit where
  ValidateOU := fun _ ous _ => ((if ous.contains ou then (ou, true) else ("", false)), ())
  ValidateCN := fun _ c _ => (c == cn, ())

/-- A failure responder that answers 403. -/
def forbid : Handler where
  ServeHTTP := fun w _ => { w with status := some 403, body := w.body ++ "Authentication Failed" }

/-- A downstream handler that answers 200. -/
def hello : Handle :=
  fun w _ _ => { w with status := some 200, body := w.body ++ "hello, world!" }

/-- An `Auth` around `allowOne "endpoint" "client1"`. -/
def exampleAuth (inject : Bool) (ident : String) : Auth Unit :=
  ⟨allowOne "endpoint" "client1", forbid, inject, ident⟩

/-- A certificate with the given bytes, OUs and CN. -/
def cert (raw : List (Fin 256)) (ous : List String) (cn : String) : Certificate :=
  ⟨raw, ⟨ous, cn⟩⟩

/-- A request over TLS whose single verified chain is the single certificate
given, presented as the raw peer certificate too. -/
def requestWith (c : Certificate) (hdr : List (String × List String)) : Request :=
  ⟨some ⟨some [some c], some [[some c]]⟩, some ⟨hdr⟩⟩

/-- An empty response writer. -/
def emptyWriter : ResponseWriter := ⟨⟨[]⟩, none, ""⟩

/-- A request without TLS, as a plain HTTP connection delivers it. -/
def plainRequest (hdr : List (String × List String)) : Request :=
  ⟨none, some ⟨hdr⟩⟩

/-- A request over TLS whose raw peer certificate is `peer` and whose single
verified chain is the single certificate `leaf`. -/
def requestPresenting (peer leaf : Certificate) : Request :=
  ⟨some ⟨some [some peer], some [[some leaf]]⟩, some ⟨[]⟩⟩

/-! ## The gates as the specification words them -/

/-- The policy gates: `ValidateOU` allows the leaf's OU list on the route and
then `ValidateCN` allows the leaf's CommonName on the route. -/
def policyAllows {σ : Type} (a : Auth σ) (leaf : Certificate) (route : String) (p : σ) : Bool :=
  let ou := a.authHandler.ValidateOU p leaf.Subject.OrganizationalUnit route
  let cn := a.authHandler.ValidateCN ou.2 leaf.Subject.CommonName route
  ou.1.2 && cn.1

/-- The four gates in the claim's words: a verified chain with its leaf is
present; the raw peer certificate is absent (the raw list is nil, or empty, or
starts with a nil pointer) or byte-equal to the verified leaf; `ValidateOU`
allows; `ValidateCN` allows. -/
def gatesPass {σ : Type} (a : Auth σ) (r : Request) (route : String) (p : σ) : Bool :=
  match r.TLS with
  | none => false
  | some tls =>
    match tls.VerifiedChains with
    | some ((some leaf :: _) :: _) =>
      (match elems tls.PeerCertificates with
        | some peer :: _ => decide (peer.Raw = leaf.Raw)
        | _ => true)
      && policyAllows a leaf route p
    | _ => false

/-! ## Construction and configuration of an `Auth` -/

/-- Go `Header.Set`: replaces the values under the canonical form of the key
by the single value given. -/
def Header.Set (canon : String → String) (h : Header) (key value : String) : Header :=
  h.store (canon key) [value]

/-- Go `ResponseWriter.WriteHeader`: records the status code; a second call
is ignored. -/
def ResponseWriter.WriteHeader (w : ResponseWriter) (code : Nat) : ResponseWriter :=
  match w.status with
  | some _ => w
  | none => { w with status := some code }

/-- Go `ResponseWriter.Write`: sends status 200 first when no status was
written yet, then appends to the body. -/
def ResponseWriter.Write (w : ResponseWriter) (data : String) : ResponseWriter :=
  let w1 := w.WriteHeader 200
  { w1 with body := w1.body ++ data }

/-- Go `http.StatusForbidden`. -/
def http.StatusForbidden : Nat := 403

/-- Go `http.Error`: drops `Content-Length`, sets the plain-text content type
and `nosniff`, writes the status code, and prints the message with
`fmt.Fprintln`, that is followed by a newline. -/
def http.Error (canon : String → String) (w : ResponseWriter) (msg : String) (code : Nat) :
    ResponseWriter :=
  let h0 := Header.Del canon w.header "Content-Length"
  let h1 := Header.Set canon h0 "Content-Type" "text/plain; charset=utf-8"
  let h2 := Header.Set canon h1 "X-Content-Type-Options" "nosniff"
  let w1 := ResponseWriter.WriteHeader { w with header := h2 } code
  ResponseWriter.Write w1 (msg ++ "\n")

/-- Go `defaultAuthErrorHandler`. -/
def defaultAuthErrorHandler (canon : String → String) (w : ResponseWriter) (_r : Request) :
    ResponseWriter :=
  http.Error canon w "Authentication Failed" http.StatusForbidden

/-- Go `NewAuth`. -/
def NewAuth {σ : Type} (canon : String → String) (authHandler : AuthHandler σ) : Auth σ :=
  { authHandler := authHandler,
    authErrHandler := ⟨defaultAuthErrorHandler canon⟩,
    setReqHeaders := false,
    reqHeaderIdentifier := "" }

/-- Go `(*Auth).SetAuthErrorHandler`. -/
def Auth.SetAuthErrorHandler {σ : Type} (a : Auth σ) (handler : Handler) : Auth σ :=
  { a with authErrHandler := handler }

/-- Go `(*Auth).SetReqHeaders`. -/
def Auth.SetReqHeaders {σ : Type} (a : Auth σ) (set : Bool) : Auth σ :=
  { a with setReqHeaders := set }

/-- Go `(*Auth).SetReqHeaderIdentifier`. -/
def Auth.SetReqHeaderIdentifier {σ : Type} (a : Auth σ) (ident : String) : Auth σ :=
  { a with reqHeaderIdentifier := ident }

/-! ## Canonical header keys -/

/-- Go `validHeaderFieldByte` of net/textproto: letters, digits and the other
token characters of RFC 7230, given here by their codes. -/
def validHeaderFieldByte (c : Char) : Bool :=
  c.isAlphanum || [33, 35, 36, 37, 38, 39, 42, 43, 45, 46, 94, 95, 96, 124, 126].contains c.toNat

/-- The case rule of the canonical form: upper case at the start and after
each dash, lower case elsewhere. -/
def canonicalCase : Bool → List Char → List Char
  | _, [] => []
  | upper, c :: cs =>
    let c1 :=
      if upper && c.isLower then c.toUpper
      else if !upper && c.isUpper then c.toLower
      else c
    c1 :: canonicalCase (c1 == '-') cs

/-- Go `textproto.CanonicalMIMEHeaderKey`: a key with a character that is not
a token character is returned unchanged; any other key is put in canonical
case. -/
def CanonicalMIMEHeaderKey (s : String) : String :=
  if s.data.all validHeaderFieldByte then ⟨canonicalCase true s.data⟩ else s

/-! ## Observations on the trace -/

/-- The request and parameters of a downstream call. -/
def Event.downstreamCall : Event → Option (Request × Params)
  | .downstream r ps => some (r, ps)
  | _ => none

/-- The downstream calls recorded in a trace, in order. -/
def downstreamCalls (trace : List Event) : List (Request × Params) :=
  trace.filterMap Event.downstreamCall

/-! ## The specification's notions -/

/-- The specification's error taxonomy. -/
inductive FailureKind where
  | noChain
  | chainMismatch
  | ouValidation
  | cnValidation
  deriving DecidableEq, Repr

/-- The failure kind of a request, following the specification's steps in
order: no chain when TLS or the verified-chain list is absent; chain mismatch
when the first raw peer certificate differs in bytes from the verified leaf;
OU validation when `ValidateOU` rejects; CN validation when `ValidateCN`
rejects.  It is `none` when every step passes and when the lists hold no
first certificate. -/
def failureKind {σ : Type} (a : Auth σ) (r : Request) (route : String) (p : σ) :
    Option FailureKind :=
  match r.TLS with
  | none => some .noChain
  | some tls =>
    match tls.VerifiedChains with
    | none => some .noChain
    | some ((some leaf :: _) :: _) =>
      let byPolicy : Option FailureKind :=
        if (a.authHandler.ValidateOU p leaf.Subject.OrganizationalUnit route).1.2 = false then
          some .ouValidation
        else if policyAllows a leaf route p = false then some .cnValidation
        else none
      match tls.PeerCertificates with
      | none => byPolicy
      | some (some peer :: _) => if peer.Raw = leaf.Raw then byPolicy else some .chainMismatch
      | some _ => none
    | some _ => none

/-- A deterministic policy: what its methods return does not depend on the
state they are called in. -/
def AuthHandler.Deterministic {σ : Type} (ah : AuthHandler σ) : Prop :=
  (∀ s s' ous route, (ah.ValidateOU s ous route).1 = (ah.ValidateOU s' ous route).1)
    ∧ (∀ s s' cn route, (ah.ValidateCN s cn route).1 = (ah.ValidateCN s' cn route).1)

/-- A policy that counts its calls in its state and decides as `allowOne`. -/
def countingPolicy (ou cn : String) : AuthHandler Nat where
  ValidateOU := fun n ous _ => ((if ous.contains ou then (ou, true) else ("", false)), n + 1)
  ValidateCN := fun n c _ => (c == cn, n + 1)

/-- The first and the thirteenth character of an error message. -/
def messageTag (m : String) : Option Char × Option Char :=
  (m.data.get? 0, m.data.get? 12)

/-- The first and the thirteenth character of the message of each failure
kind: "No cert chain detected", "First peer certificate not first verified
chain leaf", "Cert failed OU validation for ..", "Cert failed CN validation
for ..". -/
def FailureKind.tag : FailureKind → Option Char × Option Char
  | .noChain => (some 'N', some 'n')
  | .chainMismatch => (some 'F', some 'e')
  | .ouValidation => (some 'C', some 'O')
  | .cnValidation => (some 'C', some 'C')

/-- An `Auth` around `countingPolicy "endpoint" "client1"`. -/
def countingAuth : Auth Nat :=
  ⟨countingPolicy "endpoint" "client1", forbid, false, ""⟩

/-- A request over TLS with the raw peer list and the verified chains given. -/
def requestOver (peers : List (Option Certificate))
    (chains : List (List (Option Certificate))) : Request :=
  ⟨some ⟨some peers, some chains⟩, some ⟨[]⟩⟩

/-- An `Auth` that allows the OU and CN given, with the example responder. -/
def authAllowing (ou cn : String) : Auth Unit :=
  ⟨allowOne ou cn, forbid, false, ""⟩

/-- A request over TLS with a nil raw peer list, the verified chains given
and the header map given, which may be nil. -/
def requestVerified (chains : List (List (Option Certificate)))
    (hdr : Option Header) : Request :=
  ⟨some ⟨none, some chains⟩, hdr⟩

/-! ## Reading the connection state -/

section Reading

variable {σ : Type}

/-- The expression `r.TLS.VerifiedChains[0][0]` yields a certificate exactly
when TLS is present and the first verified chain starts with a non-nil
certificate. -/
theorem verifiedLeaf_eq_ok_iff (r : Request) (leaf : Certificate) :
    verifiedLeaf r = .ok leaf ↔
      ∃ tls tail others, r.TLS = some tls ∧
        tls.VerifiedChains = some ((some leaf :: tail) :: others) := by
  rcases r with ⟨_ | ⟨peers, chains⟩, hdr⟩
  · simp [verifiedLeaf, deref]
  · rcases chains with _ | _ | ⟨_ | ⟨_ | c, tail⟩, others⟩ <;>
      simp [verifiedLeaf, deref, index, elems]

/-- The expression `r.TLS.PeerCertificates[0]` yields a certificate exactly
when TLS is present and the raw peer list starts with a non-nil certificate. -/
theorem firstPeer_eq_ok_iff (r : Request) (peer : Certificate) :
    firstPeer r = .ok peer ↔
      ∃ tls tail, r.TLS = some tls ∧ tls.PeerCertificates = some (some peer :: tail) := by
  rcases r with ⟨_ | ⟨peers, chains⟩, hdr⟩
  · simp [firstPeer, deref]
  · rcases peers with _ | _ | ⟨_ | c, tail⟩ <;>
      simp [firstPeer, deref, index, elems]

/-- Reading the key just written gives the values written. -/
theorem Header.index_store (h : Header) (key : String) (vs : List String) :
    (h.store key vs).index key = vs := by
  simp [Header.store, Header.index, Header.find]

/-- A key that the filter rejects is absent from the filtered entries. -/
theorem Header.find_filter_none (l : List (String × List String)) (key : String)
    (f : String × List String → Bool) (hf : ∀ e, f e = true → e.1 ≠ key) :
    Header.find (l.filter f) key = none := by
  induction l with
  | nil => rfl
  | cons e rest ih =>
    rw [List.filter_cons]
    split
    · rename_i he
      obtain ⟨k, v⟩ := e
      have hk : k ≠ key := hf (k, v) he
      simp [Header.find, hk, ih]
    · exact ih

/-- Reading a deleted key gives the nil slice. -/
theorem Header.index_delete (h : Header) (key : String) :
    (h.delete key).index key = [] := by
  unfold Header.delete Header.index
  rw [Header.find_filter_none]
  · rfl
  · intro e he
    simpa using he

/-- After `Del` and `Add` of one name, that name carries the added value alone. -/
theorem Header.Values_Add_Del (canon : String → String) (h : Header) (name value : String) :
    Header.Values canon (Header.Add canon (Header.Del canon h name) name value) name
      = [value] := by
  simp [Header.Values, Header.Add, Header.Del, Header.index_store, Header.index_delete]

/-- The calls `Process` makes are never calls of the downstream handler. -/
theorem Process_trace_filter_isDownstream (a : Auth σ) (r : Request) (route : String)
    (s : State σ) :
    (Process a r route s).2.trace.filter Event.isDownstream
      = s.trace.filter Event.isDownstream := by
  rcases hv : ValidateRequest a r with e | _ | err <;>
    rcases hl : verifiedLeaf r with e2 | leaf <;>
    simp only [Process, hv, hl]
  all_goals try split_ifs
  all_goals simp [callValidateOU, callValidateCN, callAuthErrHandler, Event.isDownstream]

/-- The tag of the no-chain message. -/
theorem messageTag_noChain :
    messageTag "No cert chain detected" = FailureKind.noChain.tag := by
  decide

/-- The tag of the chain-mismatch message. -/
theorem messageTag_chainMismatch :
    messageTag "First peer certificate not first verified chain leaf"
      = FailureKind.chainMismatch.tag := by
  decide

/-- The tag of an OU-validation message, whatever the OU list. -/
theorem messageTag_ouValidation (x : String) :
    messageTag ("Cert failed OU validation for " ++ x) = FailureKind.ouValidation.tag := by
  simp [messageTag, FailureKind.tag]

/-- The tag of a CN-validation message, whatever the CN. -/
theorem messageTag_cnValidation (x : String) :
    messageTag ("Cert failed CN validation for " ++ x) = FailureKind.cnValidation.tag := by
  simp [messageTag, FailureKind.tag]

/-- The tags of the four failure kinds are pairwise different. -/
theorem FailureKind.tag_injective (k1 k2 : FailureKind) (h : k1.tag = k2.tag) : k1 = k2 := by
  cases k1 <;> cases k2 <;> first | rfl | (exact absurd h (by decide))

/-- An error returned by `Process` belongs to the failure kind of the request,
and its message carries the tag of that kind. -/
theorem Process_error_tag (a : Auth σ) (r : Request) (route : String) (p : σ)
    (w : ResponseWriter) (who : String) (e : GoError)
    (he : (Process a r route (State.start p w)).1 = .ok (who, some e)) :
    ∃ k, failureKind a r route p = some k ∧ messageTag e.msg = k.tag := by
  rcases r with ⟨_ | ⟨peers, chains⟩, hdr⟩
  · simp [Process, ValidateRequest, errors.New] at he
    obtain ⟨-, rfl⟩ := he
    exact ⟨.noChain, rfl, messageTag_noChain⟩
  · rcases chains with _ | _ | ⟨_ | ⟨_ | c, tail⟩, others⟩ <;>
      rcases peers with _ | _ | ⟨_ | pc, ptail⟩ <;>
      simp only [Process, ValidateRequest, verifiedLeaf, firstPeer, deref, index, elems,
        callValidateOU, callValidateCN, State.start, errors.New, List.get?] at he
    all_goals try split_ifs at he
    all_goals simp at he
    all_goals obtain ⟨-, rfl⟩ := he
    all_goals first
      | exact ⟨.noChain, by simp_all [failureKind, policyAllows], messageTag_noChain⟩
      | exact ⟨.chainMismatch, by simp_all [failureKind, policyAllows],
          messageTag_chainMismatch⟩
      | exact ⟨.ouValidation, by simp_all [failureKind, policyAllows],
          messageTag_ouValidation _⟩
      | exact ⟨.cnValidation, by simp_all [failureKind, policyAllows],
          messageTag_cnValidation _⟩

/-- A filter that keeps every entry of one key leaves the lookup of that key
as it was. -/
theorem Header.find_filter_keep (l : List (String × List String)) (other : String)
    (f : String × List String → Bool) (hf : ∀ e, e.1 = other → f e = true) :
    Header.find (l.filter f) other = Header.find l other := by
  induction l with
  | nil => rfl
  | cons e rest ih =>
    obtain ⟨k, v⟩ := e
    rw [List.filter_cons]
    split
    · simp [Header.find, ih]
    · rename_i hfe
      have hko : k ≠ other := fun hh => hfe (hf (k, v) hh)
      simp [Header.find, hko, ih]

/-- A removal of one key leaves the read of every other key as it was. -/
theorem Header.index_delete_of_ne (h : Header) (key other : String) (hne : other ≠ key) :
    (h.delete key).index other = h.index other := by
  unfold Header.delete Header.index
  rw [Header.find_filter_keep]
  intro e he
  have : e.1 ≠ key := he ▸ hne
  simpa using this

/-- A write under one key leaves the read of every other key as it was. -/
theorem Header.index_store_of_ne (h : Header) (key other : String) (vs : List String)
    (hne : other ≠ key) :
    (h.store key vs).index other = h.index other := by
  have hko : key ≠ other := fun hh => hne hh.symm
  have hd := Header.index_delete_of_ne h key other hne
  unfold Header.index at hd ⊢
  simp only [Header.store, Header.find, hko, if_false]
  exact hd

/-- After `Del` and `Add` of one name, every key of the map other than the
canonical form of that name holds what it held. -/
theorem Header.index_Add_Del_of_ne (canon : String → String) (h : Header)
    (name value other : String) (hne : other ≠ canon name) :
    (Header.Add canon (Header.Del canon h name) name value).index other = h.index other := by
  simp [Header.Add, Header.Del, Header.index_store_of_ne _ _ _ _ hne,
    Header.index_delete_of_ne _ _ _ hne]

/-- The result of `Process` depends on the policy and the failure responder
of the `Auth` only. -/
theorem Process_eq_of_handlers (a b : Auth σ) (r : Request) (route : String) (s : State σ)
    (h1 : a.authHandler = b.authHandler) (h2 : a.authErrHandler = b.authErrHandler) :
    Process a r route s = Process b r route s := by
  have hv : ValidateRequest a r = ValidateRequest b r := rfl
  simp [Process, hv, callValidateOU, callValidateCN, callAuthErrHandler, h1, h2]

/-- The calls `Process` makes are never calls of the downstream handler. -/
theorem Process_downstreamCalls (a : Auth σ) (r : Request) (route : String) (s : State σ) :
    downstreamCalls (Process a r route s).2.trace = downstreamCalls s.trace := by
  rcases hv : ValidateRequest a r with e | _ | err <;>
    rcases hl : verifiedLeaf r with e2 | leaf <;>
    simp only [Process, hv, hl]
  all_goals try split_ifs
  all_goals simp [callValidateOU, callValidateCN, callAuthErrHandler, downstreamCalls,
    Event.downstreamCall]

/-- Under a deterministic policy the result of `Process` does not depend on
the state it starts from. -/
theorem Process_result_state_independent (a : Auth σ) (r : Request) (route : String)
    (s s' : State σ) (hdet : a.authHandler.Deterministic) :
    (Process a r route s).1 = (Process a r route s').1 := by
  rcases hv : ValidateRequest a r with e | _ | err <;>
    rcases hl : verifiedLeaf r with e2 | leaf <;>
    simp only [Process, hv, hl]
  have h1 := hdet.1 s.policy s'.policy leaf.Subject.OrganizationalUnit route
  have h2 := hdet.2 (a.authHandler.ValidateOU s.policy leaf.Subject.OrganizationalUnit route).2
    (a.authHandler.ValidateOU s'.policy leaf.Subject.OrganizationalUnit route).2
    leaf.Subject.CommonName route
  simp only [callValidateOU, callValidateCN, h1, h2]
  split_ifs <;> rfl

/-- Two requests that agree on the presence of TLS and of the two lists, on
the verified leaf and on the bytes of the first raw peer certificate get the
same answer from `ValidateRequest`. -/
theorem ValidateRequest_eq_of_agree (a : Auth σ) (r1 r2 : Request)
    (hT : r1.TLS.isSome = r2.TLS.isSome)
    (hV : (r1.TLS.bind (fun tls => tls.VerifiedChains)).isSome
      = (r2.TLS.bind (fun tls => tls.VerifiedChains)).isSome)
    (hP : (r1.TLS.bind (fun tls => tls.PeerCertificates)).isSome
      = (r2.TLS.bind (fun tls => tls.PeerCertificates)).isSome)
    (hL : verifiedLeaf r1 = verifiedLeaf r2)
    (hR : (firstPeer r1).map Certificate.Raw = (firstPeer r2).map Certificate.Raw) :
    ValidateRequest a r1 = ValidateRequest a r2 := by
  rcases h1 : r1.TLS with _ | ⟨peers1, chains1⟩ <;>
    rcases h2 : r2.TLS with _ | ⟨peers2, chains2⟩ <;>
    simp [h1, h2] at hT hV hP
  · simp [ValidateRequest, h1, h2]
  · rcases chains1 with _ | c1 <;> rcases chains2 with _ | c2 <;> simp at hV
    · simp [ValidateRequest, h1, h2]
    · rcases peers1 with _ | q1 <;> rcases peers2 with _ | q2 <;> simp at hP
      · simp [ValidateRequest, h1, h2]
      · simp only [ValidateRequest, h1, h2, hL]
        rcases hf1 : firstPeer r1 with e1 | x1 <;> rcases hf2 : firstPeer r2 with e2 | x2 <;>
          simp [hf1, hf2, Except.map] at hR
        · simp [hR]
        · simp [hR]

/-- The result of `Process` when every gate passes. -/
theorem Process_success (a : Auth σ) (r : Request) (route : String) (p : σ)
    (w : ResponseWriter) (leaf : Certificate) (matchedOU : String) (p1 p2 : σ)
    (hreq : ValidateRequest a r = .ok none)
    (hleaf : verifiedLeaf r = .ok leaf)
    (hou : a.authHandler.ValidateOU p leaf.Subject.OrganizationalUnit route
      = ((matchedOU, true), p1))
    (hcn : a.authHandler.ValidateCN p1 leaf.Subject.CommonName route = (true, p2)) :
    (Process a r route (State.start p w)).1
      = .ok (matchedOU ++ "/" ++ leaf.Subject.CommonName, none) := by
  simp [Process, hreq, hleaf, callValidateOU, callValidateCN, State.start, hou, hcn]

/-- Two lists cut at the first occurrence of a separator agree on both sides
of the cut when the joined lists agree. -/
theorem split_at_separator {α : Type} (c : α) (l1 l2 t1 t2 : List α)
    (h1 : c ∉ l1) (h2 : c ∉ l2) (h : l1 ++ c :: t1 = l2 ++ c :: t2) :
    l1 = l2 ∧ t1 = t2 := by
  induction l1 generalizing l2 with
  | nil =>
    cases l2 with
    | nil => simpa using h
    | cons y l2 =>
      simp only [List.nil_append, List.cons_append, List.cons.injEq] at h
      exact absurd h.1 (fun hh => h2 (hh ▸ List.mem_cons_self _ _))
  | cons x l1 ih =>
    cases l2 with
    | nil =>
      simp only [List.nil_append, List.cons_append, List.cons.injEq] at h
      exact absurd h.1 (fun hh => h1 (hh ▸ List.mem_cons_self _ _))
    | cons y l2 =>
      simp only [List.cons_append, List.cons.injEq] at h
      have hx : c ∉ l1 := fun hh => h1 (List.mem_cons_of_mem _ hh)
      have hy : c ∉ l2 := fun hh => h2 (List.mem_cons_of_mem _ hh)
      obtain ⟨e1, e2⟩ := ih l2 hx hy h.2
      exact ⟨by rw [h.1, e1], e2⟩

/-- Identities built from OUs without a slash determine the OU and the CN. -/
theorem identity_determines_pair (ou1 ou2 cn1 cn2 : String)
    (h1 : '/' ∉ ou1.data) (h2 : '/' ∉ ou2.data)
    (h : ou1 ++ "/" ++ cn1 = ou2 ++ "/" ++ cn2) :
    ou1 = ou2 ∧ cn1 = cn2 := by
  have hd := congrArg String.data h
  simp only [String.data_append, List.append_assoc] at hd
  obtain ⟨e1, e2⟩ := split_at_separator '/' ou1.data ou2.data cn1.data cn2.data h1 h2 hd
  exact ⟨String.ext e1, String.ext e2⟩

/-- A successful call of `Process` leaves the response writer as it was. -/
theorem Process_success_writer (a : Auth σ) (r : Request) (route : String) (s : State σ)
    (who : String) (hok : (Process a r route s).1 = .ok (who, none)) :
    (Process a r route s).2.w = s.w := by
  rcases hv : ValidateRequest a r with e | _ | err <;>
    rcases hl : verifiedLeaf r with e2 | leaf <;>
    simp only [Process, hv, hl] at hok ⊢
  all_goals try split_ifs at hok ⊢
  all_goals simp_all [callValidateOU, callValidateCN, callAuthErrHandler]

/-- On success with injection off, the handler returned by `RouterHandler`
calls the downstream handler with the inbound request. -/
theorem RouterHandler_injection_off (canon : String → String) (a : Auth σ) (h : Handle)
    (r : Request) (ps : Params) (s : State σ) (who : String)
    (hoff : a.setReqHeaders = false)
    (hok : (Process a r (Params.MatchedRoutePath ps) s).1 = .ok (who, none)) :
    RouterHandler canon a h r ps s
      = (none, callDownstream h r ps (Process a r (Params.MatchedRoutePath ps) s).2) := by
  generalize hP : Process a r (Params.MatchedRoutePath ps) s = out at hok
  obtain ⟨res, s1⟩ := out
  simp only at hok
  subst hok
  simp [RouterHandler, hP, hoff]

/-- On success with injection on and an allocated header map, the handler
returned by `RouterHandler` calls the downstream handler with the request
whose header map went through `Del` and `Add` of the header name. -/
theorem RouterHandler_injection_on (canon : String → String) (a : Auth σ) (h : Handle)
    (r : Request) (ps : Params) (s : State σ) (who name : String) (hm : Header)
    (hset : a.setReqHeaders = true)
    (hname : name = if a.reqHeaderIdentifier ≠ "" then a.reqHeaderIdentifier else "X-TLS-Auth")
    (hH : r.Header = some hm)
    (hok : (Process a r (Params.MatchedRoutePath ps) s).1 = .ok (who, none)) :
    RouterHandler canon a h r ps s
      = (none, callDownstream h
          ⟨r.TLS, some (Header.Add canon (Header.Del canon hm name) name who)⟩ ps
          (Process a r (Params.MatchedRoutePath ps) s).2) := by
  generalize hP : Process a r (Params.MatchedRoutePath ps) s = out at hok
  obtain ⟨res, s1⟩ := out
  simp only at hok
  subst hok
  simp [RouterHandler, hP, hset, hH, ← hname, Header.Nilable.Add, Header.Nilable.Del]

/-- On success with injection on and a nil header map, the handler returned by
`RouterHandler` panics in `Add` and does not call the downstream handler. -/
theorem RouterHandler_nil_header (canon : String → String) (a : Auth σ) (h : Handle)
    (r : Request) (ps : Params) (s : State σ) (who : String)
    (hset : a.setReqHeaders = true)
    (hH : r.Header = none)
    (hok : (Process a r (Params.MatchedRoutePath ps) s).1 = .ok (who, none)) :
    RouterHandler canon a h r ps s
      = (some .assignmentToNilMap, (Process a r (Params.MatchedRoutePath ps) s).2) := by
  generalize hP : Process a r (Params.MatchedRoutePath ps) s = out at hok
  obtain ⟨res, s1⟩ := out
  simp only at hok
  subst hok
  simp [RouterHandler, hP, hset, hH, Header.Nilable.Add, Header.Nilable.Del]

/-- The downstream calls recorded after one more downstream call. -/
theorem downstreamCalls_callDownstream (h : Handle) (r : Request) (ps : Params)
    (s : State σ) :
    downstreamCalls (callDownstream h r ps s).trace = downstreamCalls s.trace ++ [(r, ps)] := by
  simp [callDownstream, downstreamCalls, List.filterMap_append, Event.downstreamCall]

/-- A key that no entry carries is absent from the map. -/
theorem Header.find_eq_none (l : List (String × List String)) (key : String)
    (hk : ∀ e ∈ l, e.1 ≠ key) : Header.find l key = none := by
  induction l with
  | nil => rfl
  | cons e rest ih =>
    obtain ⟨k, v⟩ := e
    have h1 : k ≠ key := hk (k, v) (List.mem_cons_self _ _)
    have h2 : ∀ e ∈ rest, e.1 ≠ key := fun e he => hk e (List.mem_cons_of_mem _ he)
    simp [Header.find, h1, ih h2]

end Reading

/-! ## The claims -/

section Claims

variable {σ : Type}

/-- C1. When `ValidateRequest` succeeds, `ValidateOU` returns
`(matchedOU, true)` for the OU list of the leaf `VerifiedChains[0][0]` and
`ValidateCN` returns true for the leaf's CommonName, `Process` returns a nil
error and the identity `matchedOU ++ "/" ++ cn`. -/
theorem Process_identity (a : Auth σ) (r : Request) (route : String) (p : σ)
    (w : ResponseWriter) (leaf : Certificate) (matchedOU : String) (p1 p2 : σ)
    (hreq : ValidateRequest a r = .ok none)
    (hleaf : verifiedLeaf r = .ok leaf)
    (hou : a.authHandler.ValidateOU p leaf.Subject.OrganizationalUnit route
      = ((matchedOU, true), p1))
    (hcn : a.authHandler.ValidateCN p1 leaf.Subject.CommonName route = (true, p2)) :
    (Process a r route (State.start p w)).1
      = .ok (matchedOU ++ "/" ++ leaf.Subject.CommonName, none) := by
  simp [Process, hreq, hleaf, callValidateOU, callValidateCN, State.start, hou, hcn]

/-- C1 at the specification's example: OU `["endpoint"]`, CN `"client1"` and
route `"/"` give the identity `"endpoint/client1"`. -/
theorem Process_identity_witness :
    (Process (exampleAuth false "") (requestWith (cert [1] ["endpoint"] "client1") []) "/"
        (State.start () emptyWriter)).1
      = .ok ("endpoint/client1", none) :=
  Process_identity (exampleAuth false "") (requestWith (cert [1] ["endpoint"] "client1") [])
    "/" () emptyWriter (cert [1] ["endpoint"] "client1") "endpoint" () ()
    (by decide) (by decide) (by decide) (by decide)

/-- C2, evaluated where the code departs from it.  On a request without TLS,
and on a request whose raw peer certificate differs from the verified leaf,
authentication fails and the handler returned by `RouterHandler` returns
without a single call of the failure responder: the state, response writer
included, is the one it started from. -/
theorem RouterHandler_silent_on_invalid_request (canon : String → String) (a : Auth σ)
    (h : Handle) (hdr : List (String × List String)) (ps : Params) (p : σ)
    (w : ResponseWriter) :
    (Process a (plainRequest hdr) (Params.MatchedRoutePath ps) (State.start p w)).1
        = .ok ("", some ⟨"No cert chain detected"⟩)
      ∧ (RouterHandler canon a h (plainRequest hdr) ps (State.start p w)).2.trace.countP
          Event.isAuthErr = 0
      ∧ (RouterHandler canon a h (plainRequest hdr) ps (State.start p w)).2.w = w
      ∧ (Process a (requestPresenting (cert [1] [] "") (cert [2] [] ""))
            (Params.MatchedRoutePath ps) (State.start p w)).1
          = .ok ("", some ⟨"First peer certificate not first verified chain leaf"⟩)
      ∧ (RouterHandler canon a h (requestPresenting (cert [1] [] "") (cert [2] [] "")) ps
            (State.start p w)).2.trace.countP Event.isAuthErr = 0
      ∧ (RouterHandler canon a h (requestPresenting (cert [1] [] "") (cert [2] [] "")) ps
            (State.start p w)).2.w = w := by
  refine ⟨rfl, rfl, rfl, rfl, rfl, rfl⟩

/-- C3, evaluated where the code departs from it.  With a verified-chain list
that is non-nil and empty, with an empty first chain, and with a raw peer list
that is non-nil and empty, `Process` raises an index-out-of-range panic; it
returns neither an identity nor an error. -/
theorem Process_panics_on_empty_lists (a : Auth σ) (hdr : Option Header) (route : String)
    (s : State σ) (c : Certificate) :
    Process a ⟨some ⟨none, some []⟩, hdr⟩ route s = (.error (.indexOutOfRange 0 0), s)
      ∧ Process a ⟨some ⟨none, some [[]]⟩, hdr⟩ route s = (.error (.indexOutOfRange 0 0), s)
      ∧ Process a ⟨some ⟨some [], some [[some c]]⟩, hdr⟩ route s
          = (.error (.indexOutOfRange 0 0), s) := by
  refine ⟨rfl, rfl, rfl⟩

/-- C4. On a request with no TLS state, or with nil `VerifiedChains`,
`Process` returns the empty identity with the error "No cert chain detected"
and calls nothing; the handler returned by `RouterHandler` returns with the
state untouched, so the downstream handler is not invoked. -/
theorem noChain_rejected (canon : String → String) (a : Auth σ) (h : Handle) (r : Request)
    (route : String) (ps : Params) (p : σ) (w : ResponseWriter)
    (hno : r.TLS = none ∨ ∃ tls, r.TLS = some tls ∧ tls.VerifiedChains = none) :
    Process a r route (State.start p w)
        = (.ok ("", some ⟨"No cert chain detected"⟩), State.start p w)
      ∧ RouterHandler canon a h r ps (State.start p w) = (none, State.start p w)
      ∧ (RouterHandler canon a h r ps (State.start p w)).2.trace.countP
          Event.isDownstream = 0 := by
  have hv : ValidateRequest a r = .ok (some ⟨"No cert chain detected"⟩) := by
    rcases hno with h0 | ⟨tls, h0, h1⟩
    · simp [ValidateRequest, h0, errors.New]
    · simp [ValidateRequest, h0, h1, errors.New]
  have hp : ∀ rt, Process a r rt (State.start p w)
      = (.ok ("", some ⟨"No cert chain detected"⟩), State.start p w) := by
    intro rt
    simp [Process, hv]
  have hr : RouterHandler canon a h r ps (State.start p w) = (none, State.start p w) := by
    simp [RouterHandler, hp]
  refine ⟨hp route, hr, ?_⟩
  rw [hr]
  rfl

/-- C4 on a TLS connection whose `VerifiedChains` is nil while a raw peer
certificate is present. -/
theorem noChain_rejected_witness :
    Process (exampleAuth true "") ⟨some ⟨some [some (cert [1] ["endpoint"] "client1")], none⟩, some ⟨[]⟩⟩
        "/" (State.start () emptyWriter)
        = (.ok ("", some ⟨"No cert chain detected"⟩), State.start () emptyWriter)
      ∧ RouterHandler id (exampleAuth true "") hello
          ⟨some ⟨some [some (cert [1] ["endpoint"] "client1")], none⟩, some ⟨[]⟩⟩ []
          (State.start () emptyWriter) = (none, State.start () emptyWriter)
      ∧ (RouterHandler id (exampleAuth true "") hello
          ⟨some ⟨some [some (cert [1] ["endpoint"] "client1")], none⟩, some ⟨[]⟩⟩ []
          (State.start () emptyWriter)).2.trace.countP Event.isDownstream = 0 :=
  noChain_rejected id (exampleAuth true "") hello
    ⟨some ⟨some [some (cert [1] ["endpoint"] "client1")], none⟩, some ⟨[]⟩⟩ "/" [] () emptyWriter
    (Or.inr ⟨_, rfl, rfl⟩)

/-- C5. When the first raw peer certificate and the leaf
`VerifiedChains[0][0]` both exist and their `Raw` bytes differ, `Process`
returns the error "First peer certificate not first verified chain leaf",
whatever the policy is, and calls nothing. -/
theorem chainMismatch_rejected (a : Auth σ) (r : Request) (route : String) (s : State σ)
    (peer leaf : Certificate)
    (hpeer : firstPeer r = .ok peer)
    (hleaf : verifiedLeaf r = .ok leaf)
    (hne : peer.Raw ≠ leaf.Raw) :
    Process a r route s
      = (.ok ("", some ⟨"First peer certificate not first verified chain leaf"⟩), s) := by
  have hv : ValidateRequest a r
      = .ok (some ⟨"First peer certificate not first verified chain leaf"⟩) := by
    obtain ⟨tls, tail, others, h0, h1⟩ := (verifiedLeaf_eq_ok_iff r leaf).1 hleaf
    obtain ⟨tls2, tail2, h2, h3⟩ := (firstPeer_eq_ok_iff r peer).1 hpeer
    have : tls2 = tls := by
      rw [h0] at h2
      exact (Option.some.inj h2).symm
    subst this
    simp [ValidateRequest, h0, h1, h3, hpeer, hleaf, hne, errors.New]
  simp [Process, hv]

/-- C5 on a request presenting a certificate with bytes `[1]` while the
verified leaf has bytes `[2]`, under a policy that would allow the leaf. -/
theorem chainMismatch_rejected_witness :
    Process (exampleAuth false "")
        (requestPresenting (cert [1] ["endpoint"] "client1") (cert [2] ["endpoint"] "client1"))
        "/" (State.start () emptyWriter)
      = (.ok ("", some ⟨"First peer certificate not first verified chain leaf"⟩),
          State.start () emptyWriter) :=
  chainMismatch_rejected (exampleAuth false "")
    (requestPresenting (cert [1] ["endpoint"] "client1") (cert [2] ["endpoint"] "client1"))
    "/" (State.start () emptyWriter) (cert [1] ["endpoint"] "client1")
    (cert [2] ["endpoint"] "client1") (by decide) (by decide) (by decide)

/-- C6. When the request passes `ValidateRequest` and `ValidateOU` rejects the
leaf's OU list, `Process` returns the error "Cert failed OU validation for"
followed by that OU list, and the calls it made are `ValidateOU` and the
failure responder only: `ValidateCN` is not invoked. -/
theorem ouRejected_skips_ValidateCN (a : Auth σ) (r : Request) (route : String) (p : σ)
    (w : ResponseWriter) (leaf : Certificate) (ou : String) (p1 : σ)
    (hreq : ValidateRequest a r = .ok none)
    (hleaf : verifiedLeaf r = .ok leaf)
    (hou : a.authHandler.ValidateOU p leaf.Subject.OrganizationalUnit route
      = ((ou, false), p1)) :
    (Process a r route (State.start p w)).1
        = .ok ("", some ⟨"Cert failed OU validation for "
            ++ fmt.verbV leaf.Subject.OrganizationalUnit⟩)
      ∧ (Process a r route (State.start p w)).2.trace
          = [Event.ValidateOU leaf.Subject.OrganizationalUnit route, Event.authErrHandler r]
      ∧ (Process a r route (State.start p w)).2.trace.countP Event.isValidateCN = 0
      ∧ (Process a r route (State.start p w)).2.policy = p1 := by
  simp [Process, hreq, hleaf, callValidateOU, callAuthErrHandler, State.start, hou,
    Event.isValidateCN]

/-- C6 on a certificate with OU `["other", "more"]` under a policy that allows
OU `"endpoint"` only. -/
theorem ouRejected_skips_ValidateCN_witness :
    (Process (exampleAuth false "") (requestWith (cert [1] ["other", "more"] "client1") [])
        "/" (State.start () emptyWriter)).1
        = .ok ("", some ⟨"Cert failed OU validation for [other more]"⟩)
      ∧ (Process (exampleAuth false "") (requestWith (cert [1] ["other", "more"] "client1") [])
          "/" (State.start () emptyWriter)).2.trace.countP Event.isValidateCN = 0 :=
  have h := ouRejected_skips_ValidateCN (exampleAuth false "")
    (requestWith (cert [1] ["other", "more"] "client1") []) "/" () emptyWriter
    (cert [1] ["other", "more"] "client1") "" () (by decide) (by decide) (by decide)
  ⟨h.1, h.2.2.1⟩

/-- C7. When the request passes `ValidateRequest`, `ValidateOU` allows the
leaf's OU list and `ValidateCN` rejects the leaf's CommonName `cn`, `Process`
returns the empty identity with the error "Cert failed CN validation for"
followed by `cn`. -/
theorem cnRejected_error (a : Auth σ) (r : Request) (route : String) (p : σ)
    (w : ResponseWriter) (leaf : Certificate) (ou : String) (p1 p2 : σ)
    (hreq : ValidateRequest a r = .ok none)
    (hleaf : verifiedLeaf r = .ok leaf)
    (hou : a.authHandler.ValidateOU p leaf.Subject.OrganizationalUnit route
      = ((ou, true), p1))
    (hcn : a.authHandler.ValidateCN p1 leaf.Subject.CommonName route = (false, p2)) :
    (Process a r route (State.start p w)).1
      = .ok ("", some ⟨"Cert failed CN validation for " ++ leaf.Subject.CommonName⟩) := by
  simp [Process, hreq, hleaf, callValidateOU, callValidateCN, State.start, hou, hcn]

/-- C7 on a certificate with OU `["endpoint"]` and CN `"client2"` under a
policy that allows CN `"client1"` only. -/
theorem cnRejected_error_witness :
    (Process (exampleAuth false "") (requestWith (cert [1] ["endpoint"] "client2") [])
        "/" (State.start () emptyWriter)).1
      = .ok ("", some ⟨"Cert failed CN validation for client2"⟩) :=
  cnRejected_error (exampleAuth false "") (requestWith (cert [1] ["endpoint"] "client2") [])
    "/" () emptyWriter (cert [1] ["endpoint"] "client2") "endpoint" () ()
    (by decide) (by decide) (by decide) (by decide)

/-- C9 as stated fails.  On a certificate whose OU the policy rejects,
`Process` itself invokes the failure responder once, and the response writer
it leaves behind carries the responder's status 403. -/
theorem Process_invokes_failure_responder :
    (Process (exampleAuth false "") (requestWith (cert [1] ["other"] "client1") []) "/"
        (State.start () emptyWriter)).2.trace.countP Event.isAuthErr = 1
      ∧ (Process (exampleAuth false "") (requestWith (cert [1] ["other"] "client1") []) "/"
          (State.start () emptyWriter)).2.w.status = some 403
      ∧ emptyWriter.status = none := by
  decide

/-- C9 amended.  On a request that passes `ValidateRequest`, `Process` invokes
the failure responder exactly once, with the request, when the policy rejects
the OU list or the CommonName, and not at all when the policy allows both;
the response writer changes through that call only; `Process` never calls the
downstream handler; and the handler returned by `RouterHandler` adds no call
of the failure responder to those of `Process`. -/
theorem failure_responder_called_by_Process (canon : String → String) (a : Auth σ)
    (h : Handle) (r : Request) (route : String) (ps : Params) (p : σ) (w : ResponseWriter)
    (leaf : Certificate)
    (hreq : ValidateRequest a r = .ok none)
    (hleaf : verifiedLeaf r = .ok leaf) :
    (Process a r route (State.start p w)).2.trace.filter Event.isAuthErr
        = (if policyAllows a leaf route p then [] else [Event.authErrHandler r])
      ∧ (Process a r route (State.start p w)).2.w
        = (if policyAllows a leaf route p then w else a.authErrHandler.ServeHTTP w r)
      ∧ (Process a r route (State.start p w)).2.trace.countP Event.isDownstream = 0
      ∧ (RouterHandler canon a h r ps (State.start p w)).2.trace.countP Event.isAuthErr
        = (Process a r (Params.MatchedRoutePath ps) (State.start p w)).2.trace.countP
            Event.isAuthErr := by
  refine ⟨?_, ?_, ?_, ?_⟩
  · simp only [Process, hreq, hleaf, policyAllows]
    split_ifs <;>
      simp_all [callValidateOU, callValidateCN, callAuthErrHandler, State.start,
        Event.isAuthErr]
  · simp only [Process, hreq, hleaf, policyAllows]
    split_ifs <;>
      simp_all [callValidateOU, callValidateCN, callAuthErrHandler, State.start]
  · have hf := Process_trace_filter_isDownstream a r route (State.start p w)
    rw [List.countP_eq_length_filter, hf]
    rfl
  · generalize hP : Process a r (Params.MatchedRoutePath ps) (State.start p w) = out
    obtain ⟨res, s1⟩ := out
    rcases res with e | ⟨who, _ | err⟩
    · simp [RouterHandler, hP]
    · by_cases hs : a.setReqHeaders = true
      · rcases hH : r.Header with _ | hm <;>
          simp [RouterHandler, hP, hs, hH, Header.Nilable.Add, Header.Nilable.Del,
            callDownstream, Event.isAuthErr]
      · simp [RouterHandler, hP, hs, callDownstream, Event.isAuthErr]
    · simp [RouterHandler, hP]

/-- C9 amended, on a certificate whose OU the policy rejects: one call of the
failure responder, and the writer is the one the responder leaves. -/
theorem failure_responder_called_by_Process_witness :
    (Process (exampleAuth false "") (requestWith (cert [1] ["other"] "client1") []) "/"
        (State.start () emptyWriter)).2.trace.filter Event.isAuthErr
        = [Event.authErrHandler (requestWith (cert [1] ["other"] "client1") [])]
      ∧ (Process (exampleAuth false "") (requestWith (cert [1] ["other"] "client1") []) "/"
          (State.start () emptyWriter)).2.w
        = forbid.ServeHTTP emptyWriter (requestWith (cert [1] ["other"] "client1") []) :=
  have h := failure_responder_called_by_Process id (exampleAuth false "") hello
    (requestWith (cert [1] ["other"] "client1") []) "/" [] () emptyWriter
    (cert [1] ["other"] "client1") (by decide) (by decide)
  ⟨h.1, h.2.1⟩

/-- C11 as stated fails.  With the responder that `NewAuth` installs, a
certificate with an allowed OU and the rejected CN "client2" gets status 403,
and the body is "Authentication Failed" followed by a newline, not the bare
text. -/
theorem default_body_ends_with_newline :
    (RouterHandler CanonicalMIMEHeaderKey
        (NewAuth CanonicalMIMEHeaderKey (allowOne "endpoint" "client1")) hello
        (requestWith (cert [1] ["endpoint"] "client2") []) []
        (State.start () emptyWriter)).2.w.status = some 403
      ∧ (RouterHandler CanonicalMIMEHeaderKey
        (NewAuth CanonicalMIMEHeaderKey (allowOne "endpoint" "client1")) hello
        (requestWith (cert [1] ["endpoint"] "client2") []) []
        (State.start () emptyWriter)).2.w.body = "Authentication Failed\n"
      ∧ (RouterHandler CanonicalMIMEHeaderKey
        (NewAuth CanonicalMIMEHeaderKey (allowOne "endpoint" "client1")) hello
        (requestWith (cert [1] ["endpoint"] "client2") []) []
        (State.start () emptyWriter)).2.w.body ≠ "Authentication Failed" := by
  decide

/-- C11 amended.  For an `Auth` whose failure responder is the one `NewAuth`
installs, a request that passes `ValidateRequest` and is rejected by the
policy, on the OU list or on the CommonName alike, gets on a fresh response
writer the status 403 and the body "Authentication Failed" followed by a
newline. -/
theorem default_responder_403 (canon : String → String) (a : Auth σ) (h : Handle)
    (r : Request) (ps : Params) (p : σ) (hdr : Header) (leaf : Certificate)
    (ha : a.authErrHandler = (NewAuth canon a.authHandler).authErrHandler)
    (hreq : ValidateRequest a r = .ok none)
    (hleaf : verifiedLeaf r = .ok leaf)
    (hrej : policyAllows a leaf (Params.MatchedRoutePath ps) p = false) :
    (RouterHandler canon a h r ps (State.start p ⟨hdr, none, ""⟩)).2.w.status = some 403
      ∧ (RouterHandler canon a h r ps (State.start p ⟨hdr, none, ""⟩)).2.w.body
        = "Authentication Failed\n" := by
  simp only [policyAllows] at hrej
  simp only [RouterHandler, Process, hreq, hleaf]
  split_ifs <;>
    simp_all [callValidateOU, callValidateCN, callAuthErrHandler, State.start, NewAuth,
      defaultAuthErrorHandler, http.Error, ResponseWriter.WriteHeader, ResponseWriter.Write,
      http.StatusForbidden]

/-- C11 amended, on a rejected OU: the same status and body as for the
rejected CN. -/
theorem default_responder_403_witness :
    (RouterHandler CanonicalMIMEHeaderKey
        (NewAuth CanonicalMIMEHeaderKey (allowOne "endpoint" "client1")) hello
        (requestWith (cert [1] ["other"] "client1") []) []
        (State.start () ⟨⟨[]⟩, none, ""⟩)).2.w.status = some 403
      ∧ (RouterHandler CanonicalMIMEHeaderKey
        (NewAuth CanonicalMIMEHeaderKey (allowOne "endpoint" "client1")) hello
        (requestWith (cert [1] ["other"] "client1") []) []
        (State.start () ⟨⟨[]⟩, none, ""⟩)).2.w.body = "Authentication Failed\n" :=
  default_responder_403 CanonicalMIMEHeaderKey
    (NewAuth CanonicalMIMEHeaderKey (allowOne "endpoint" "client1")) hello
    (requestWith (cert [1] ["other"] "client1") []) [] () ⟨[]⟩
    (cert [1] ["other"] "client1") rfl (by decide) (by decide) (by decide)

/-- C12. Two failing calls of `Process` whose failures are of different kinds
(no chain, chain mismatch, OU validation, CN validation) return different
errors: the messages differ, whatever the OU lists and the CommonNames. -/
theorem failure_kinds_have_distinct_errors {τ : Type} (a1 : Auth σ) (a2 : Auth τ)
    (r1 r2 : Request) (route1 route2 : String) (p1 : σ) (p2 : τ) (w1 w2 : ResponseWriter)
    (who1 who2 : String) (e1 e2 : GoError)
    (h1 : (Process a1 r1 route1 (State.start p1 w1)).1 = .ok (who1, some e1))
    (h2 : (Process a2 r2 route2 (State.start p2 w2)).1 = .ok (who2, some e2))
    (hk : failureKind a1 r1 route1 p1 ≠ failureKind a2 r2 route2 p2) :
    e1.msg ≠ e2.msg ∧ e1 ≠ e2 := by
  obtain ⟨k1, hk1, ht1⟩ := Process_error_tag a1 r1 route1 p1 w1 who1 e1 h1
  obtain ⟨k2, hk2, ht2⟩ := Process_error_tag a2 r2 route2 p2 w2 who2 e2 h2
  have hmsg : e1.msg ≠ e2.msg := by
    intro heq
    apply hk
    rw [hk1, hk2, FailureKind.tag_injective k1 k2 (by rw [← ht1, ← ht2, heq])]
  exact ⟨hmsg, fun heq => hmsg (congrArg GoError.msg heq)⟩

/-- C12 on an OU-validation failure and a CN-validation failure under one
policy. -/
theorem failure_kinds_have_distinct_errors_witness :
    (⟨"Cert failed OU validation for [other]"⟩ : GoError).msg
        ≠ (⟨"Cert failed CN validation for client2"⟩ : GoError).msg
      ∧ (⟨"Cert failed OU validation for [other]"⟩ : GoError)
        ≠ ⟨"Cert failed CN validation for client2"⟩ :=
  failure_kinds_have_distinct_errors (exampleAuth false "") (exampleAuth false "")
    (requestWith (cert [1] ["other"] "client1") [])
    (requestWith (cert [1] ["endpoint"] "client2") []) "/" "/" () () emptyWriter emptyWriter
    "" "" ⟨"Cert failed OU validation for [other]"⟩ ⟨"Cert failed CN validation for client2"⟩
    (by decide) (by decide) (by decide)

/-- C14. Under a deterministic policy, a second call of `Process` on the same
`Auth`, request and route, made in the state the first call left, returns the
same identity and error as the first; more generally the result is the same
from any two states. -/
theorem Process_idempotent (a : Auth σ) (r : Request) (route : String) (s s' : State σ)
    (hdet : a.authHandler.Deterministic) :
    (Process a r route (Process a r route s).2).1 = (Process a r route s).1
      ∧ (Process a r route s').1 = (Process a r route s).1 :=
  ⟨Process_result_state_independent a r route _ _ hdet,
    Process_result_state_independent a r route _ _ hdet⟩

/-- C14 under a policy that counts its calls: the second call starts from a
policy state of 2 and a written response, and returns the same result. -/
theorem Process_idempotent_witness :
    (Process countingAuth (requestWith (cert [1] ["endpoint"] "client2") []) "/"
        (State.start 0 emptyWriter)).2.policy = 2
      ∧ (Process countingAuth (requestWith (cert [1] ["endpoint"] "client2") []) "/"
          (Process countingAuth (requestWith (cert [1] ["endpoint"] "client2") []) "/"
            (State.start 0 emptyWriter)).2).1
        = (Process countingAuth (requestWith (cert [1] ["endpoint"] "client2") []) "/"
            (State.start 0 emptyWriter)).1 :=
  ⟨by decide,
    (Process_idempotent countingAuth (requestWith (cert [1] ["endpoint"] "client2") []) "/"
      (State.start 0 emptyWriter) (State.start 0 emptyWriter)
      ⟨fun _ _ _ _ => rfl, fun _ _ _ _ => rfl⟩).1⟩

/-- C15. When `ValidateRequest` returns an error, `Process` returns that
error and calls nothing: neither `ValidateOU` nor `ValidateCN` is invoked, and
the policy state is the one before the call. -/
theorem policy_not_consulted_on_invalid_request (a : Auth σ) (r : Request) (route : String)
    (p : σ) (w : ResponseWriter) (err : GoError)
    (hv : ValidateRequest a r = .ok (some err)) :
    (Process a r route (State.start p w)).1 = .ok ("", some err)
      ∧ (Process a r route (State.start p w)).2.trace = []
      ∧ (Process a r route (State.start p w)).2.trace.countP Event.isValidateOU = 0
      ∧ (Process a r route (State.start p w)).2.trace.countP Event.isValidateCN = 0
      ∧ (Process a r route (State.start p w)).2.policy = p := by
  simp [Process, hv, State.start]

/-- C15 on a chain mismatch, under a policy that would count a call. -/
theorem policy_not_consulted_on_invalid_request_witness :
    (Process countingAuth
        (requestPresenting (cert [1] ["endpoint"] "client1") (cert [2] ["endpoint"] "client1"))
        "/" (State.start 0 emptyWriter)).2.trace = []
      ∧ (Process countingAuth
        (requestPresenting (cert [1] ["endpoint"] "client1") (cert [2] ["endpoint"] "client1"))
        "/" (State.start 0 emptyWriter)).2.policy = 0 :=
  have h := policy_not_consulted_on_invalid_request countingAuth
    (requestPresenting (cert [1] ["endpoint"] "client1") (cert [2] ["endpoint"] "client1"))
    "/" 0 emptyWriter ⟨"First peer certificate not first verified chain leaf"⟩ (by decide)
  ⟨h.2.1, h.2.2.2.2⟩

/-- C16. Two requests that agree on whether TLS, `VerifiedChains` and
`PeerCertificates` are present, on what `VerifiedChains[0][0]` evaluates to
and on the `Raw` bytes of `PeerCertificates[0]` get the same result from
`Process` for the same `Auth`, route and starting state, and leave the policy
in the same state; the other chains, the rest of the first chain, the other
peer certificates and the headers play no part. -/
theorem Process_depends_on_leaf_and_first_peer (a : Auth σ) (r1 r2 : Request)
    (route : String) (s : State σ)
    (hT : r1.TLS.isSome = r2.TLS.isSome)
    (hV : (r1.TLS.bind (fun tls => tls.VerifiedChains)).isSome
      = (r2.TLS.bind (fun tls => tls.VerifiedChains)).isSome)
    (hP : (r1.TLS.bind (fun tls => tls.PeerCertificates)).isSome
      = (r2.TLS.bind (fun tls => tls.PeerCertificates)).isSome)
    (hL : verifiedLeaf r1 = verifiedLeaf r2)
    (hR : (firstPeer r1).map Certificate.Raw = (firstPeer r2).map Certificate.Raw) :
    (Process a r1 route s).1 = (Process a r2 route s).1
      ∧ (Process a r1 route s).2.policy = (Process a r2 route s).2.policy := by
  have hv := ValidateRequest_eq_of_agree a r1 r2 hT hV hP hL hR
  rcases hv2 : ValidateRequest a r2 with e | _ | err <;>
    rcases hl2 : verifiedLeaf r2 with e2 | leaf <;>
    simp only [Process, hv, hL, hv2, hl2, and_self]
  simp only [callValidateOU, callValidateCN, callAuthErrHandler]
  split_ifs <;> exact ⟨rfl, rfl⟩

/-- C16 on two requests with the same leaf and the same first raw bytes: the
second has another subject on the raw peer certificate, a second peer
certificate, a longer first chain and a second chain. -/
theorem Process_depends_on_leaf_and_first_peer_witness :
    (Process (exampleAuth false "")
        (requestOver [some (cert [1] ["endpoint"] "client1")]
          [[some (cert [1] ["endpoint"] "client1")]])
        "/" (State.start () emptyWriter)).1
      = (Process (exampleAuth false "")
          (requestOver [some (cert [1] ["x"] "y"), none]
            [[some (cert [1] ["endpoint"] "client1"), some (cert [7] [] "ca")],
              [some (cert [9] ["other"] "z")]])
          "/" (State.start () emptyWriter)).1 :=
  (Process_depends_on_leaf_and_first_peer (exampleAuth false "")
    (requestOver [some (cert [1] ["endpoint"] "client1")]
      [[some (cert [1] ["endpoint"] "client1")]])
    (requestOver [some (cert [1] ["x"] "y"), none]
      [[some (cert [1] ["endpoint"] "client1"), some (cert [7] [] "ca")],
        [some (cert [9] ["other"] "z")]])
    "/" (State.start () emptyWriter) (by decide) (by decide) (by decide) (by decide)
    (by decide)).1

/-- C20. Two successful calls of `Process` whose matched OUs contain no "/"
and which return the same identity have the same matched OU and the same
CommonName; whereas the matched OU "a/b" with CN "c" and the matched OU "a"
with CN "b/c" give the one identity "a/b/c". -/
theorem identity_identifies_pair_without_slash :
    (∀ (σ τ : Type) (a1 : Auth σ) (a2 : Auth τ) (r1 r2 : Request) (route1 route2 : String)
        (p1 q1 q1' : σ) (p2 q2 q2' : τ) (w1 w2 : ResponseWriter) (leaf1 leaf2 : Certificate)
        (ou1 ou2 : String),
        ValidateRequest a1 r1 = .ok none → verifiedLeaf r1 = .ok leaf1 →
        a1.authHandler.ValidateOU p1 leaf1.Subject.OrganizationalUnit route1
          = ((ou1, true), q1) →
        a1.authHandler.ValidateCN q1 leaf1.Subject.CommonName route1 = (true, q1') →
        ValidateRequest a2 r2 = .ok none → verifiedLeaf r2 = .ok leaf2 →
        a2.authHandler.ValidateOU p2 leaf2.Subject.OrganizationalUnit route2
          = ((ou2, true), q2) →
        a2.authHandler.ValidateCN q2 leaf2.Subject.CommonName route2 = (true, q2') →
        '/' ∉ ou1.data → '/' ∉ ou2.data →
        (Process a1 r1 route1 (State.start p1 w1)).1
          = (Process a2 r2 route2 (State.start p2 w2)).1 →
        ou1 = ou2 ∧ leaf1.Subject.CommonName = leaf2.Subject.CommonName)
      ∧ ((Process (authAllowing "a/b" "c") (requestWith (cert [1] ["a/b"] "c") []) "/"
            (State.start () emptyWriter)).1 = .ok ("a/b/c", none)
          ∧ (Process (authAllowing "a" "b/c") (requestWith (cert [1] ["a"] "b/c") []) "/"
            (State.start () emptyWriter)).1 = .ok ("a/b/c", none)
          ∧ (("a/b", "c") : String × String) ≠ ("a", "b/c")) := by
  refine ⟨?_, by decide⟩
  intro σ τ a1 a2 r1 r2 route1 route2 p1 q1 q1' p2 q2 q2' w1 w2 leaf1 leaf2 ou1 ou2
    hreq1 hleaf1 hou1 hcn1 hreq2 hleaf2 hou2 hcn2 hs1 hs2 hid
  rw [Process_success a1 r1 route1 p1 w1 leaf1 ou1 q1 q1' hreq1 hleaf1 hou1 hcn1,
    Process_success a2 r2 route2 p2 w2 leaf2 ou2 q2 q2' hreq2 hleaf2 hou2 hcn2] at hid
  have hs : ou1 ++ "/" ++ leaf1.Subject.CommonName = ou2 ++ "/" ++ leaf2.Subject.CommonName := by
    simpa using hid
  exact identity_determines_pair ou1 ou2 _ _ hs1 hs2 hs

/-- C20 on two calls that both return "endpoint/client1": the matched OU and
the CN are the same. -/
theorem identity_identifies_pair_without_slash_witness :
    ("endpoint" : String) = "endpoint"
      ∧ (cert [1] ["endpoint"] "client1").Subject.CommonName
        = (cert [2] ["endpoint", "x"] "client1").Subject.CommonName :=
  identity_identifies_pair_without_slash.1 Unit Unit (exampleAuth false "")
    (exampleAuth true "") (requestWith (cert [1] ["endpoint"] "client1") [])
    (requestWith (cert [2] ["endpoint", "x"] "client1") []) "/" "/r" () () () () () ()
    emptyWriter emptyWriter (cert [1] ["endpoint"] "client1")
    (cert [2] ["endpoint", "x"] "client1") "endpoint" "endpoint"
    (by decide) (by decide) (by decide) (by decide) (by decide) (by decide) (by decide)
    (by decide) (by decide) (by decide) (by decide)

/-- C8. With header injection enabled and authentication succeeding with
identity `who`: on a request whose header map is allocated, the handler
applies the downstream handler once, to the response writer and a request
whose header map `h1` carries under the configured header name (the name set,
or "X-TLS-Auth" when none is set) the single value `who`, whatever the inbound
map held there; and when the keys of the inbound map are canonical, as
net/http stores what a client sends, no other spelling of the name holds a
value in `h1`.  On a request whose header map is nil, `Add` panics and the
downstream handler is not applied. -/
theorem injected_header_is_identity (canon : String → String) (a : Auth σ) (h : Handle)
    (r : Request) (ps : Params) (p : σ) (w : ResponseWriter) (who name : String)
    (hset : a.setReqHeaders = true)
    (hname : name = if a.reqHeaderIdentifier ≠ "" then a.reqHeaderIdentifier else "X-TLS-Auth")
    (hok : (Process a r (Params.MatchedRoutePath ps) (State.start p w)).1 = .ok (who, none)) :
    (∀ hm, r.Header = some hm →
        ∃ h1, (RouterHandler canon a h r ps (State.start p w)).1 = none
          ∧ downstreamCalls (RouterHandler canon a h r ps (State.start p w)).2.trace
            = [(⟨r.TLS, some h1⟩, ps)]
          ∧ (RouterHandler canon a h r ps (State.start p w)).2.w = h w ⟨r.TLS, some h1⟩ ps
          ∧ Header.Values canon h1 name = [who]
          ∧ Header.Get canon h1 name = who
          ∧ ((∀ e ∈ hm.entries, canon e.1 = e.1) →
              ∀ key, canon key = canon name → key ≠ canon name → h1.index key = []))
      ∧ (r.Header = none →
          (RouterHandler canon a h r ps (State.start p w)).1 = some .assignmentToNilMap
            ∧ downstreamCalls (RouterHandler canon a h r ps (State.start p w)).2.trace = []
            ∧ (RouterHandler canon a h r ps (State.start p w)).2.w = w) := by
  have hw := Process_success_writer a r (Params.MatchedRoutePath ps) (State.start p w) who hok
  have hc := Process_downstreamCalls a r (Params.MatchedRoutePath ps) (State.start p w)
  have hc0 : downstreamCalls (State.start p w).trace = [] := rfl
  constructor
  · intro hm hH
    refine ⟨Header.Add canon (Header.Del canon hm name) name who, ?_, ?_, ?_, ?_, ?_, ?_⟩
    · rw [RouterHandler_injection_on canon a h r ps _ who name hm hset hname hH hok]
    · rw [RouterHandler_injection_on canon a h r ps _ who name hm hset hname hH hok,
        downstreamCalls_callDownstream, hc, hc0]
      rfl
    · rw [RouterHandler_injection_on canon a h r ps _ who name hm hset hname hH hok]
      simp only [callDownstream, hw]
      rfl
    · exact Header.Values_Add_Del canon hm name who
    · have hv := Header.Values_Add_Del canon hm name who
      simp only [Header.Values] at hv
      simp [Header.Get, hv]
    · intro hkeys key hkey hne
      rw [Header.index_Add_Del_of_ne canon hm name who key hne]
      have hnone : Header.find hm.entries key = none := by
        apply Header.find_eq_none
        intro e he heq
        apply hne
        rw [← heq, ← hkey, ← heq, hkeys e he]
      simp [Header.index, hnone]
  · intro hH
    rw [RouterHandler_nil_header canon a h r ps _ who hset hH hok]
    exact ⟨rfl, by rw [hc, hc0], hw⟩

/-- C8 on a request as net/http delivers it when the client sent two values
under "X-TLS-Auth" (stored under the canonical key "X-Tls-Auth") and one under
"Accept": the downstream handler `hello` is applied, to a request that carries
the identity alone under the name and the inbound "Accept". -/
theorem injected_header_is_identity_witness :
    (∃ h1, downstreamCalls (RouterHandler CanonicalMIMEHeaderKey (exampleAuth true "") hello
            (requestWith (cert [1] ["endpoint"] "client1")
              [("X-Tls-Auth", ["admin/root", "x"]), ("Accept", ["*"])])
            [] (State.start () emptyWriter)).2.trace
          = [(⟨(requestWith (cert [1] ["endpoint"] "client1")
              [("X-Tls-Auth", ["admin/root", "x"]), ("Accept", ["*"])]).TLS, some h1⟩, [])]
      ∧ (RouterHandler CanonicalMIMEHeaderKey (exampleAuth true "") hello
            (requestWith (cert [1] ["endpoint"] "client1")
              [("X-Tls-Auth", ["admin/root", "x"]), ("Accept", ["*"])])
            [] (State.start () emptyWriter)).2.w
          = hello emptyWriter ⟨(requestWith (cert [1] ["endpoint"] "client1")
              [("X-Tls-Auth", ["admin/root", "x"]), ("Accept", ["*"])]).TLS, some h1⟩ []
      ∧ Header.Values CanonicalMIMEHeaderKey h1 "X-TLS-Auth" = ["endpoint/client1"]
      ∧ Header.Get CanonicalMIMEHeaderKey h1 "X-TLS-Auth" = "endpoint/client1")
      ∧ downstreamCalls (RouterHandler CanonicalMIMEHeaderKey (exampleAuth true "") hello
            (requestWith (cert [1] ["endpoint"] "client1")
              [("X-Tls-Auth", ["admin/root", "x"]), ("Accept", ["*"])])
            [] (State.start () emptyWriter)).2.trace
          = [(requestWith (cert [1] ["endpoint"] "client1")
              [("X-Tls-Auth", ["endpoint/client1"]), ("Accept", ["*"])], [])]
      ∧ (RouterHandler CanonicalMIMEHeaderKey (exampleAuth true "") hello
            (requestWith (cert [1] ["endpoint"] "client1")
              [("X-Tls-Auth", ["admin/root", "x"]), ("Accept", ["*"])])
            [] (State.start () emptyWriter)).2.w.status = some 200 :=
  ⟨((injected_header_is_identity CanonicalMIMEHeaderKey (exampleAuth true "") hello
      (requestWith (cert [1] ["endpoint"] "client1")
        [("X-Tls-Auth", ["admin/root", "x"]), ("Accept", ["*"])])
      [] () emptyWriter "endpoint/client1" "X-TLS-Auth" (by decide) (by decide)
      (by decide)).1 ⟨[("X-Tls-Auth", ["admin/root", "x"]), ("Accept", ["*"])]⟩ rfl).elim
      fun h1 hh => ⟨h1, hh.2.1, hh.2.2.1, hh.2.2.2.1, hh.2.2.2.2.1⟩,
    by decide, by decide⟩

/-- C13. On a successful request: an `Auth` returned by `NewAuth` applies the
downstream handler to the inbound request as it is (injection is off).  With
injection enabled and an allocated header map, the downstream handler is
applied to a request whose header map carries the identity as the single value
under "X-TLS-Auth" when no name is set or the empty name is set, and under the
name set when a non-empty name is set; in that last case "X-TLS-Auth" holds
what it held inbound when it is another header than the name set, that is when
their canonical keys differ.  With injection enabled and a nil header map
`Add` panics and the downstream handler is not applied. -/
theorem header_name_defaults (canon : String → String) (ah : AuthHandler σ) (h : Handle)
    (r : Request) (ps : Params) (p : σ) (w : ResponseWriter) (who name : String)
    (hok : (Process (NewAuth canon ah) r (Params.MatchedRoutePath ps) (State.start p w)).1
      = .ok (who, none))
    (hname : name ≠ "") :
    (RouterHandler canon (NewAuth canon ah) h r ps (State.start p w)).1 = none
      ∧ downstreamCalls (RouterHandler canon (NewAuth canon ah) h r ps
          (State.start p w)).2.trace = [(r, ps)]
      ∧ (RouterHandler canon (NewAuth canon ah) h r ps (State.start p w)).2.w = h w r ps
      ∧ (∀ hm, r.Header = some hm →
          (∃ h1, downstreamCalls (RouterHandler canon ((NewAuth canon ah).SetReqHeaders true)
                h r ps (State.start p w)).2.trace = [(⟨r.TLS, some h1⟩, ps)]
            ∧ (RouterHandler canon ((NewAuth canon ah).SetReqHeaders true)
                h r ps (State.start p w)).2.w = h w ⟨r.TLS, some h1⟩ ps
            ∧ Header.Values canon h1 "X-TLS-Auth" = [who])
          ∧ (∃ h1, downstreamCalls (RouterHandler canon
                (((NewAuth canon ah).SetReqHeaders true).SetReqHeaderIdentifier "")
                h r ps (State.start p w)).2.trace = [(⟨r.TLS, some h1⟩, ps)]
            ∧ (RouterHandler canon
                (((NewAuth canon ah).SetReqHeaders true).SetReqHeaderIdentifier "")
                h r ps (State.start p w)).2.w = h w ⟨r.TLS, some h1⟩ ps
            ∧ Header.Values canon h1 "X-TLS-Auth" = [who])
          ∧ (∃ h1, downstreamCalls (RouterHandler canon
                (((NewAuth canon ah).SetReqHeaders true).SetReqHeaderIdentifier name)
                h r ps (State.start p w)).2.trace = [(⟨r.TLS, some h1⟩, ps)]
            ∧ (RouterHandler canon
                (((NewAuth canon ah).SetReqHeaders true).SetReqHeaderIdentifier name)
                h r ps (State.start p w)).2.w = h w ⟨r.TLS, some h1⟩ ps
            ∧ Header.Values canon h1 name = [who]
            ∧ (canon "X-TLS-Auth" ≠ canon name →
                Header.Values canon h1 "X-TLS-Auth" = Header.Values canon hm "X-TLS-Auth")))
      ∧ (r.Header = none →
          RouterHandler canon ((NewAuth canon ah).SetReqHeaders true) h r ps (State.start p w)
              = (some .assignmentToNilMap,
                  (Process (NewAuth canon ah) r (Params.MatchedRoutePath ps)
                    (State.start p w)).2)
            ∧ RouterHandler canon
                (((NewAuth canon ah).SetReqHeaders true).SetReqHeaderIdentifier name)
                h r ps (State.start p w)
              = (some .assignmentToNilMap,
                  (Process (NewAuth canon ah) r (Params.MatchedRoutePath ps)
                    (State.start p w)).2)
            ∧ (Process (NewAuth canon ah) r (Params.MatchedRoutePath ps)
                (State.start p w)).2.w = w
            ∧ downstreamCalls (Process (NewAuth canon ah) r (Params.MatchedRoutePath ps)
                (State.start p w)).2.trace = []) := by
  have hw := Process_success_writer _ r (Params.MatchedRoutePath ps) (State.start p w) who hok
  have hc := Process_downstreamCalls (NewAuth canon ah) r (Params.MatchedRoutePath ps)
    (State.start p w)
  have hc0 : downstreamCalls (State.start p w).trace = [] := rfl
  rw [hc0] at hc
  have hP : ∀ b : Auth σ, b.authHandler = ah →
      b.authErrHandler = (NewAuth canon ah).authErrHandler →
      Process b r (Params.MatchedRoutePath ps) (State.start p w)
        = Process (NewAuth canon ah) r (Params.MatchedRoutePath ps) (State.start p w) :=
    fun b h1 h2 => Process_eq_of_handlers b (NewAuth canon ah) r _ _ h1 h2
  have hon : ∀ (b : Auth σ) (n : String) (hm : Header), b.authHandler = ah →
      b.authErrHandler = (NewAuth canon ah).authErrHandler → b.setReqHeaders = true →
      n = (if b.reqHeaderIdentifier ≠ "" then b.reqHeaderIdentifier else "X-TLS-Auth") →
      r.Header = some hm →
      downstreamCalls (RouterHandler canon b h r ps (State.start p w)).2.trace
          = [(⟨r.TLS, some (Header.Add canon (Header.Del canon hm n) n who)⟩, ps)]
        ∧ (RouterHandler canon b h r ps (State.start p w)).2.w
          = h w ⟨r.TLS, some (Header.Add canon (Header.Del canon hm n) n who)⟩ ps := by
    intro b n hm h1 h2 h3 h4 hH
    have hokb : (Process b r (Params.MatchedRoutePath ps) (State.start p w)).1
        = .ok (who, none) := by rw [hP b h1 h2]; exact hok
    rw [RouterHandler_injection_on canon b h r ps _ who n hm h3 h4 hH hokb, hP b h1 h2]
    refine ⟨?_, ?_⟩
    · rw [downstreamCalls_callDownstream, hc]
      rfl
    · simp only [callDownstream, hw]
      rfl
  refine ⟨?_, ?_, ?_, ?_, ?_⟩
  · rw [RouterHandler_injection_off canon _ h r ps _ who rfl hok]
  · rw [RouterHandler_injection_off canon _ h r ps _ who rfl hok,
      downstreamCalls_callDownstream, hc]
    rfl
  · rw [RouterHandler_injection_off canon _ h r ps _ who rfl hok]
    simp only [callDownstream, hw]
    rfl
  · intro hm hH
    have h1 := hon ((NewAuth canon ah).SetReqHeaders true) "X-TLS-Auth" hm rfl rfl rfl rfl hH
    have h2 := hon (((NewAuth canon ah).SetReqHeaders true).SetReqHeaderIdentifier "")
      "X-TLS-Auth" hm rfl rfl rfl rfl hH
    have hn : name = (if (((NewAuth canon ah).SetReqHeaders true).SetReqHeaderIdentifier
        name).reqHeaderIdentifier ≠ "" then (((NewAuth canon ah).SetReqHeaders
        true).SetReqHeaderIdentifier name).reqHeaderIdentifier else "X-TLS-Auth") := by
      simp [Auth.SetReqHeaderIdentifier, hname]
    have h3 := hon (((NewAuth canon ah).SetReqHeaders true).SetReqHeaderIdentifier name)
      name hm rfl rfl rfl hn hH
    refine ⟨⟨_, h1.1, h1.2, Header.Values_Add_Del canon hm "X-TLS-Auth" who⟩,
      ⟨_, h2.1, h2.2, Header.Values_Add_Del canon hm "X-TLS-Auth" who⟩,
      ⟨_, h3.1, h3.2, Header.Values_Add_Del canon hm name who, ?_⟩⟩
    intro hne
    exact Header.index_Add_Del_of_ne canon hm name who _ hne
  · intro hH
    have hP1 := hP ((NewAuth canon ah).SetReqHeaders true) rfl rfl
    have hP2 := hP (((NewAuth canon ah).SetReqHeaders true).SetReqHeaderIdentifier name)
      rfl rfl
    have hok1 : (Process ((NewAuth canon ah).SetReqHeaders true) r (Params.MatchedRoutePath ps)
        (State.start p w)).1 = .ok (who, none) := by
      rw [hP1]
      exact hok
    have hok2 : (Process (((NewAuth canon ah).SetReqHeaders true).SetReqHeaderIdentifier name)
        r (Params.MatchedRoutePath ps) (State.start p w)).1 = .ok (who, none) := by
      rw [hP2]
      exact hok
    refine ⟨?_, ?_, hw, hc⟩
    · rw [RouterHandler_nil_header canon _ h r ps _ who rfl hH hok1, hP1]
    · rw [RouterHandler_nil_header canon _ h r ps _ who rfl hH hok2, hP2]

/-- C13 with the name "X-Client" set, on a request as net/http delivers it
when the client sent two values under "X-TLS-Auth": the identity goes under
"X-Client" and "X-TLS-Auth" keeps its two values. -/
theorem header_name_defaults_witness :
    ∃ h1, downstreamCalls (RouterHandler CanonicalMIMEHeaderKey
            (((NewAuth CanonicalMIMEHeaderKey (allowOne "endpoint" "client1")).SetReqHeaders
              true).SetReqHeaderIdentifier "X-Client") hello
            (requestWith (cert [1] ["endpoint"] "client1") [("X-Tls-Auth", ["a", "b"])]) []
            (State.start () emptyWriter)).2.trace
          = [(⟨(requestWith (cert [1] ["endpoint"] "client1") []).TLS, some h1⟩, [])]
      ∧ (RouterHandler CanonicalMIMEHeaderKey
            (((NewAuth CanonicalMIMEHeaderKey (allowOne "endpoint" "client1")).SetReqHeaders
              true).SetReqHeaderIdentifier "X-Client") hello
            (requestWith (cert [1] ["endpoint"] "client1") [("X-Tls-Auth", ["a", "b"])]) []
            (State.start () emptyWriter)).2.w
          = hello emptyWriter
              ⟨(requestWith (cert [1] ["endpoint"] "client1") []).TLS, some h1⟩ []
      ∧ Header.Values CanonicalMIMEHeaderKey h1 "X-Client" = ["endpoint/client1"]
      ∧ Header.Values CanonicalMIMEHeaderKey h1 "X-TLS-Auth" = ["a", "b"] :=
  have h := ((header_name_defaults CanonicalMIMEHeaderKey (allowOne "endpoint" "client1") hello
    (requestWith (cert [1] ["endpoint"] "client1") [("X-Tls-Auth", ["a", "b"])]) [] ()
    emptyWriter "endpoint/client1" "X-Client" (by decide) (by decide)).2.2.2.1
      ⟨[("X-Tls-Auth", ["a", "b"])]⟩ rfl).2.2
  h.elim fun h1 hh =>
    ⟨h1, hh.1, hh.2.1, hh.2.2.1, (hh.2.2.2 (by decide)).trans (by decide)⟩

/-- C18. On success with injection disabled the handler applies the downstream
handler to the inbound request itself, with the same route parameters.  On
success with injection enabled and an allocated header map it applies the
downstream handler, with the same route parameters and TLS state, to a request
in whose header map every header that is another header than the configured
name (its canonical key differs) has the inbound values, as has every key of
the map other than the canonical key of the configured name.  With injection
enabled and a nil header map `Add` panics and the downstream handler is not
applied. -/
theorem request_forwarded_apart_from_identity_header (canon : String → String) (a : Auth σ)
    (h : Handle) (r : Request) (ps : Params) (p : σ) (w : ResponseWriter) (who name : String)
    (hname : name = if a.reqHeaderIdentifier ≠ "" then a.reqHeaderIdentifier else "X-TLS-Auth")
    (hok : (Process a r (Params.MatchedRoutePath ps) (State.start p w)).1 = .ok (who, none)) :
    (a.setReqHeaders = false →
        (RouterHandler canon a h r ps (State.start p w)).1 = none
          ∧ downstreamCalls (RouterHandler canon a h r ps (State.start p w)).2.trace
            = [(r, ps)]
          ∧ (RouterHandler canon a h r ps (State.start p w)).2.w = h w r ps)
      ∧ (a.setReqHeaders = true → ∀ hm, r.Header = some hm →
          ∃ h1, (RouterHandler canon a h r ps (State.start p w)).1 = none
            ∧ downstreamCalls (RouterHandler canon a h r ps (State.start p w)).2.trace
              = [(⟨r.TLS, some h1⟩, ps)]
            ∧ (RouterHandler canon a h r ps (State.start p w)).2.w
              = h w ⟨r.TLS, some h1⟩ ps
            ∧ (∀ key, canon key ≠ canon name →
                Header.Values canon h1 key = Header.Values canon hm key)
            ∧ (∀ key, key ≠ canon name → h1.index key = hm.index key))
      ∧ (a.setReqHeaders = true → r.Header = none →
          (RouterHandler canon a h r ps (State.start p w)).1 = some .assignmentToNilMap
            ∧ downstreamCalls (RouterHandler canon a h r ps (State.start p w)).2.trace = []
            ∧ (RouterHandler canon a h r ps (State.start p w)).2.w = w) := by
  have hw := Process_success_writer a r (Params.MatchedRoutePath ps) (State.start p w) who hok
  have hc := Process_downstreamCalls a r (Params.MatchedRoutePath ps) (State.start p w)
  have hc0 : downstreamCalls (State.start p w).trace = [] := rfl
  rw [hc0] at hc
  refine ⟨?_, ?_, ?_⟩
  · intro hoff
    rw [RouterHandler_injection_off canon a h r ps _ who hoff hok]
    refine ⟨rfl, ?_, ?_⟩
    · rw [downstreamCalls_callDownstream, hc]
      rfl
    · simp only [callDownstream, hw]
      rfl
  · intro hset hm hH
    rw [RouterHandler_injection_on canon a h r ps _ who name hm hset hname hH hok]
    refine ⟨Header.Add canon (Header.Del canon hm name) name who, rfl, ?_, ?_, ?_, ?_⟩
    · rw [downstreamCalls_callDownstream, hc]
      rfl
    · simp only [callDownstream, hw]
      rfl
    · intro key hne
      exact Header.index_Add_Del_of_ne canon hm name who _ hne
    · intro key hne
      exact Header.index_Add_Del_of_ne canon hm name who _ hne
  · intro hset hH
    rw [RouterHandler_nil_header canon a h r ps _ who hset hH hok]
    exact ⟨rfl, hc, hw⟩

/-- C18 with injection enabled under the default name, on a request as net/http
delivers it: the downstream handler `hello` is applied, to a request in which
the header "Accept" has its inbound value. -/
theorem request_forwarded_apart_from_identity_header_witness :
    ∃ h1, downstreamCalls
          (RouterHandler CanonicalMIMEHeaderKey (exampleAuth true "") hello
            (requestWith (cert [1] ["endpoint"] "client1")
              [("X-Tls-Auth", ["evil"]), ("Accept", ["*"])]) [⟨"id", "7"⟩]
            (State.start () emptyWriter)).2.trace
          = [(⟨(requestWith (cert [1] ["endpoint"] "client1") []).TLS, some h1⟩,
              [⟨"id", "7"⟩])]
      ∧ (RouterHandler CanonicalMIMEHeaderKey (exampleAuth true "") hello
            (requestWith (cert [1] ["endpoint"] "client1")
              [("X-Tls-Auth", ["evil"]), ("Accept", ["*"])]) [⟨"id", "7"⟩]
            (State.start () emptyWriter)).2.w
          = hello emptyWriter
              ⟨(requestWith (cert [1] ["endpoint"] "client1") []).TLS, some h1⟩ [⟨"id", "7"⟩]
      ∧ Header.Values CanonicalMIMEHeaderKey h1 "accept" = ["*"]
      ∧ h1.index "Accept" = ["*"] :=
  ((request_forwarded_apart_from_identity_header CanonicalMIMEHeaderKey (exampleAuth true "")
    hello
    (requestWith (cert [1] ["endpoint"] "client1")
      [("X-Tls-Auth", ["evil"]), ("Accept", ["*"])]) [⟨"id", "7"⟩] () emptyWriter
    "endpoint/client1" "X-TLS-Auth" (by decide) (by decide)).2.1 (by decide)
      ⟨[("X-Tls-Auth", ["evil"]), ("Accept", ["*"])]⟩ rfl).elim
    fun h1 hh => ⟨h1, hh.2.1, hh.2.2.1,
      (hh.2.2.2.1 "accept" (by decide)).trans (by decide),
      (hh.2.2.2.2 "Accept" (by decide)).trans (by decide)⟩

/-- C10, evaluated where the code departs from it.  With a verified leaf that
the policy allows and a raw peer list that is non-nil and empty, so that no
raw peer certificate is present and all four gates pass, `Process` panics on
`PeerCertificates[0]`: it returns no nil error, and the handler returned by
`RouterHandler` does not apply the downstream handler (the state it leaves is
the one it started from).  On the same request with a nil raw peer list the
handler does apply the downstream handler, once.  With all gates passing,
injection enabled and a nil header map, the handler panics in `Add` and does
not apply the downstream handler either. -/
theorem downstream_skipped_though_gates_pass (canon : String → String) (h : Handle)
    (ps : Params) (w : ResponseWriter) :
    gatesPass (exampleAuth false "")
        (requestOver [] [[some (cert [1] ["endpoint"] "client1")]])
        (Params.MatchedRoutePath ps) () = true
      ∧ (Process (exampleAuth false "")
          (requestOver [] [[some (cert [1] ["endpoint"] "client1")]])
          (Params.MatchedRoutePath ps) (State.start () w)).1 = .error (.indexOutOfRange 0 0)
      ∧ RouterHandler canon (exampleAuth false "") h
          (requestOver [] [[some (cert [1] ["endpoint"] "client1")]]) ps (State.start () w)
        = (some (.indexOutOfRange 0 0), State.start () w)
      ∧ RouterHandler canon (exampleAuth false "") h
          (requestVerified [[some (cert [1] ["endpoint"] "client1")]] (some ⟨[]⟩)) ps
          (State.start () w)
        = (none,
            ⟨(), h w (requestVerified [[some (cert [1] ["endpoint"] "client1")]] (some ⟨[]⟩)) ps,
              [Event.ValidateOU ["endpoint"] (Params.MatchedRoutePath ps),
                Event.ValidateCN "client1" (Params.MatchedRoutePath ps),
                Event.downstream
                  (requestVerified [[some (cert [1] ["endpoint"] "client1")]] (some ⟨[]⟩)) ps]⟩)
      ∧ gatesPass (exampleAuth true "")
          (requestVerified [[some (cert [1] ["endpoint"] "client1")]] none)
          (Params.MatchedRoutePath ps) () = true
      ∧ RouterHandler canon (exampleAuth true "") h
          (requestVerified [[some (cert [1] ["endpoint"] "client1")]] none) ps
          (State.start () w)
        = (some .assignmentToNilMap,
            ⟨(), w, [Event.ValidateOU ["endpoint"] (Params.MatchedRoutePath ps),
              Event.ValidateCN "client1" (Params.MatchedRoutePath ps)]⟩) := by
  refine ⟨rfl, rfl, rfl, rfl, rfl, rfl⟩

/-- C17, evaluated where the code departs from it.  With a verified-chain list
that is non-nil and empty, so that no chain is present, and a nil raw peer
list, `ValidateRequest` returns no error.  On every request whose first chain
has a leaf it returns no error exactly when the raw peer list is nil or its
first certificate has the `Raw` bytes of that leaf. -/
theorem ValidateRequest_accepts_empty_chain_list (a : Auth σ) (hdr : Option Header) :
    ValidateRequest a (requestVerified [] hdr) = .ok none
      ∧ verifiedLeaf (requestVerified [] hdr) = .error (.indexOutOfRange 0 0)
      ∧ (∀ (peers : Option (List (Option Certificate))) (leaf : Certificate)
          (tail : List (Option Certificate)) (others : List (List (Option Certificate))),
          ValidateRequest a ⟨some ⟨peers, some ((some leaf :: tail) :: others)⟩, hdr⟩ = .ok none
            ↔ (peers = none
                ∨ ∃ peer ptail, peers = some (some peer :: ptail) ∧ peer.Raw = leaf.Raw)) := by
  refine ⟨rfl, rfl, ?_⟩
  intro peers leaf tail others
  rcases peers with _ | _ | ⟨_ | pc, ptail⟩ <;>
    simp [ValidateRequest, verifiedLeaf, firstPeer, deref, index, elems, errors.New]

/-- C19, evaluated where the code departs from it.  A request with a non-nil
empty verified-chain list and a nil raw peer list passes `ValidateRequest`,
and `Process` then panics on `VerifiedChains[0]` before any policy call:
`ValidateOU` is invoked zero times.  On every request that passes
`ValidateRequest` and has the leaf `VerifiedChains[0][0]`, `Process` calls
`ValidateOU` once with the leaf's OU list and the route; when that allows it
calls `ValidateCN` once, in the policy state `ValidateOU` left, with the
leaf's CommonName and the route; the failure responder follows a rejection;
and the policy state and the result are the ones those calls give. -/
theorem ValidateOU_not_reached_on_empty_chain_list (a : Auth σ) (hdr : Option Header)
    (route : String) (p : σ) (w : ResponseWriter) :
    ValidateRequest a (requestVerified [] hdr) = .ok none
      ∧ Process a (requestVerified [] hdr) route (State.start p w)
        = (.error (.indexOutOfRange 0 0), State.start p w)
      ∧ (Process a (requestVerified [] hdr) route (State.start p w)).2.trace.countP
          Event.isValidateOU = 0
      ∧ (∀ (r : Request) (leaf : Certificate),
          ValidateRequest a r = .ok none → verifiedLeaf r = .ok leaf →
          (Process a r route (State.start p w)).2.trace
              = (if (a.authHandler.ValidateOU p leaf.Subject.OrganizationalUnit route).1.2
                  = false then
                  [Event.ValidateOU leaf.Subject.OrganizationalUnit route,
                    Event.authErrHandler r]
                else if (a.authHandler.ValidateCN
                    (a.authHandler.ValidateOU p leaf.Subject.OrganizationalUnit route).2
                    leaf.Subject.CommonName route).1 = false then
                  [Event.ValidateOU leaf.Subject.OrganizationalUnit route,
                    Event.ValidateCN leaf.Subject.CommonName route, Event.authErrHandler r]
                else
                  [Event.ValidateOU leaf.Subject.OrganizationalUnit route,
                    Event.ValidateCN leaf.Subject.CommonName route])
            ∧ (Process a r route (State.start p w)).2.policy
              = (if (a.authHandler.ValidateOU p leaf.Subject.OrganizationalUnit route).1.2
                  = false then
                  (a.authHandler.ValidateOU p leaf.Subject.OrganizationalUnit route).2
                else
                  (a.authHandler.ValidateCN
                    (a.authHandler.ValidateOU p leaf.Subject.OrganizationalUnit route).2
                    leaf.Subject.CommonName route).2)
            ∧ (Process a r route (State.start p w)).1
              = (if (a.authHandler.ValidateOU p leaf.Subject.OrganizationalUnit route).1.2
                  = false then
                  .ok ("", some ⟨"Cert failed OU validation for "
                    ++ fmt.verbV leaf.Subject.OrganizationalUnit⟩)
                else if (a.authHandler.ValidateCN
                    (a.authHandler.ValidateOU p leaf.Subject.OrganizationalUnit route).2
                    leaf.Subject.CommonName route).1 = false then
                  .ok ("", some ⟨"Cert failed CN validation for "
                    ++ leaf.Subject.CommonName⟩)
                else
                  .ok ((a.authHandler.ValidateOU p leaf.Subject.OrganizationalUnit route).1.1
                    ++ "/" ++ leaf.Subject.CommonName, none))) := by
  refine ⟨rfl, rfl, rfl, ?_⟩
  intro r leaf hreq hleaf
  simp only [Process, hreq, hleaf]
  refine ⟨?_, ?_, ?_⟩ <;>
    split_ifs <;>
    simp_all [callValidateOU, callValidateCN, callAuthErrHandler, State.start]

/-- C19 on a request with two chains and two certificates in the first one,
under the policy that counts its calls: the policy is called with the OU list
and the CommonName of the first certificate of the first chain and with the
route "/r", and is left in state 2. -/
theorem ValidateOU_not_reached_on_empty_chain_list_witness :
    (Process countingAuth
        (requestVerified
          [[some (cert [1] ["endpoint", "more"] "client1"), some (cert [7] ["ca"] "root")],
            [some (cert [9] ["other"] "client9")]] none)
        "/r" (State.start 0 emptyWriter)).2.trace
        = [Event.ValidateOU ["endpoint", "more"] "/r", Event.ValidateCN "client1" "/r"]
      ∧ (Process countingAuth
        (requestVerified
          [[some (cert [1] ["endpoint", "more"] "client1"), some (cert [7] ["ca"] "root")],
            [some (cert [9] ["other"] "client9")]] none)
        "/r" (State.start 0 emptyWriter)).2.policy = 2
      ∧ (Process countingAuth
        (requestVerified
          [[some (cert [1] ["endpoint", "more"] "client1"), some (cert [7] ["ca"] "root")],
            [some (cert [9] ["other"] "client9")]] none)
        "/r" (State.start 0 emptyWriter)).1 = .ok ("endpoint/client1", none) :=
  (ValidateOU_not_reached_on_empty_chain_list countingAuth none "/r" 0 emptyWriter).2.2.2
    (requestVerified
      [[some (cert [1] ["endpoint", "more"] "client1"), some (cert [7] ["ca"] "root")],
        [some (cert [9] ["other"] "client9")]] none)
    (cert [1] ["endpoint", "more"] "client1") (by decide) (by decide)

end Claims

end mutualtls
